import Mathlib

/-!
Verification development for the CROssBAR BioCypher migration adapters
(src/bccb/uniprot_adapter.py, src/bccb/go_adapter.py, src/bccb/protein.py).

Python strings are embedded as `List Char`; the helper functions below mirror
the Python string primitives used by the adapters (`str.strip`, `str.split`,
`str.replace`, `str.rstrip`, `in`, `str.index`, `str.startswith`,
`str.endswith`, `int(...)`).  Python `None` is `Option.none`, a raised
exception is an explicit error value.
-/

/-- A Python string, embedded as its list of characters. -/
abbrev PyStr := List Char

/-- The single-quote character (written via its code point). -/
def squote : Char := Char.ofNat 39

/-- Python `str.isspace` on the whitespace characters relevant here. -/
def isPySpace (c : Char) : Bool :=
  c == ' ' || c.toNat == 9 || c.toNat == 10 || c.toNat == 13

/-- Python `s.strip()`: remove leading and trailing whitespace. -/
def pyStrip (s : PyStr) : PyStr :=
  ((s.dropWhile isPySpace).reverse.dropWhile isPySpace).reverse

/-- Python `s.strip(c)` for a single character `c`. -/
def pyStripChar (c : Char) (s : PyStr) : PyStr :=
  ((s.dropWhile (· == c)).reverse.dropWhile (· == c)).reverse

/-- Python `s.rstrip(c)` for a single character `c`. -/
def pyRstripChar (c : Char) (s : PyStr) : PyStr :=
  (s.reverse.dropWhile (· == c)).reverse

/-- Python `s.replace(a, b)` for single characters `a`, `b`. -/
def replChar (a b : Char) (s : PyStr) : PyStr :=
  s.map (fun c => if c = a then b else c)

/-- Python `s.replace(a, "")` for a single character `a`. -/
def removeChar (a : Char) (s : PyStr) : PyStr :=
  s.filter (fun c => c != a)

/-- Python `s.split(c)` for a single-character separator: splits at every
occurrence, keeping empty tokens; `"".split(c) = [""]`. -/
def splitOnChar (c : Char) : PyStr → List PyStr
  | [] => [[]]
  | x :: xs =>
    match splitOnChar c xs with
    | [] => [[]]
    | t :: ts => if x = c then [] :: t :: ts else (x :: t) :: ts

/-- Join a token list with a single-character separator (left inverse of
`splitOnChar` on its output). -/
def joinWith (c : Char) : List PyStr → PyStr
  | [] => []
  | [t] => t
  | t :: ts => t ++ c :: joinWith c ts

/-- Fuel-driven core of Python `s.replace(pat, repl)` for a non-empty
multi-character pattern (left-to-right, non-overlapping). -/
def replaceSeqAux (pat repl : PyStr) : Nat → PyStr → PyStr
  | 0, s => s
  | _ + 1, [] => []
  | n + 1, x :: xs =>
    if pat ≠ [] ∧ pat.isPrefixOf (x :: xs) then
      repl ++ replaceSeqAux pat repl n (xs.drop (pat.length - 1))
    else
      x :: replaceSeqAux pat repl n xs

/-- Python `s.replace(pat, repl)` for a non-empty pattern. -/
def replaceSeq (pat repl s : PyStr) : PyStr :=
  replaceSeqAux pat repl s.length s

/-- Python `pat in s` (substring containment). -/
def containsSeq (pat : PyStr) : PyStr → Bool
  | [] => pat.isPrefixOf []
  | x :: xs => pat.isPrefixOf (x :: xs) || containsSeq pat xs

/-- Python `s.index(pat)`: offset of the first occurrence, `none` when the
substring is absent (where Python raises `ValueError`). -/
def indexOfSeq (pat : PyStr) : PyStr → Option Nat
  | [] => if pat.isPrefixOf ([] : PyStr) then some 0 else none
  | x :: xs =>
    if pat.isPrefixOf (x :: xs) then some 0
    else (indexOfSeq pat xs).map (· + 1)

/-- Fuel-driven core of Python `s.split(pat)` for a non-empty
multi-character separator. -/
def splitOnSeqAux (pat : PyStr) : Nat → PyStr → List PyStr
  | 0, s => [s]
  | _ + 1, [] => [[]]
  | n + 1, x :: xs =>
    if pat ≠ [] ∧ pat.isPrefixOf (x :: xs) then
      [] :: splitOnSeqAux pat n (xs.drop (pat.length - 1))
    else
      match splitOnSeqAux pat n xs with
      | [] => [[x]]
      | t :: ts => (x :: t) :: ts

/-- Python `s.split(pat)` for a non-empty separator. -/
def splitOnSeq (pat s : PyStr) : List PyStr :=
  splitOnSeqAux pat s.length s

/-- Python `int(s)`: optional sign, at least one digit, surrounding
whitespace allowed; `none` where Python raises `ValueError`. -/
def pyInt (s : PyStr) : Option Int :=
  let digitsVal : PyStr → Option Nat := fun ds =>
    if ds ≠ [] ∧ ds.all (·.isDigit) then
      some (ds.foldl (fun acc c => 10 * acc + (c.toNat - 48)) 0)
    else none
  match pyStrip s with
  | '-' :: ds => (digitsVal ds).map (fun n => -(n : Int))
  | '+' :: ds => (digitsVal ds).map (fun n => (n : Int))
  | ds => (digitsVal ds).map (fun n => (n : Int))

/-- Result of a Python field-splitting helper: a raised exception, Python
`None`, a bare string, or a list of strings. -/
inductive SplitResult where
  | exn : SplitResult
  | noneV : SplitResult
  | scalar : PyStr → SplitResult
  | plist : List PyStr → SplitResult
deriving DecidableEq, Repr

/-- Collapse a one-element list to a bare scalar, as the Python code does
with `if len(field_value) == 1: field_value = field_value[0]`. -/
def collapseSingleton : List PyStr → SplitResult
  | [a] => .scalar a
  | l => .plist l

/-- The sanitization applied by `Uniprot.fields_splitter` before splitting:
`field_value.replace("|", ",").replace("'", "^").strip()`. -/
def sanitizeField (v : PyStr) : PyStr :=
  pyStrip (replChar squote '^' (replChar '|' ',' v))

/-- `Uniprot.split_fields` from `uniprot_adapter.py` (`__init__`). -/
def uniprotSplitFields : List PyStr :=
  ["secondary_ids".toList, "proteome".toList, "genes".toList, "ec".toList,
   "database(GeneID)".toList, "database(Ensembl)".toList,
   "database(KEGG)".toList]

/-- `Uniprot.fields_splitter` from `uniprot_adapter.py`.  The KEGG branch
does `e.split(":")[1]`, which raises `IndexError` when a token holds no
colon; that is the `.exn` result. -/
def fieldsSplitter (fieldKey fieldValue : PyStr) : SplitResult :=
  if fieldValue = [] then .noneV
  else
    let v1 := sanitizeField fieldValue
    if fieldKey = "proteome".toList then
      collapseSingleton (splitOnChar ',' v1)
    else if fieldKey = "genes".toList then
      collapseSingleton (splitOnChar ' ' v1)
    else
      let parts := splitOnChar ';' (pyStripChar ';' (pyStrip v1))
      if fieldKey = "database(KEGG)".toList then
        match parts.mapM (fun e => ((splitOnChar ':' e).get? 1).map pyStrip)
        with
        | none => .exn
        | some l => collapseSingleton l
      else if fieldKey = "database(GeneID)".toList then
        .scalar (parts.headD [])
      else
        collapseSingleton parts

example : fieldsSplitter "ec".toList "a; b;;c".toList =
    .plist ["a".toList, " b".toList, "".toList, "c".toList] := by decide

example : fieldsSplitter "database(KEGG)".toList "hsa:1234".toList =
    .scalar "1234".toList := by decide

example : fieldsSplitter "database(KEGG)".toList "1234".toList = .exn := by
  decide

example : fieldsSplitter "database(GeneID)".toList "123; 456".toList =
    .scalar "123".toList := by decide

example : fieldsSplitter "genes".toList "g1 g2".toList =
    .plist ["g1".toList, "g2".toList] := by decide

/-- Python `s.endswith(c)` for a single character. -/
def endsWithChar (c : Char) (s : PyStr) : Bool :=
  match s.reverse with
  | [] => false
  | x :: _ => x == c

/-- The `"(Fragment)"` marker removed by both protein-name parsers. -/
def fragMarker : PyStr := "(Fragment)".toList

/-- Token filter of the `"(EC"` branches of
`Uniprot.split_protein_names_field` (uniprot_adapter.py): drop tokens
starting with `EC` or `Fragm`, keep the rest as `name.rstrip(")").strip()`. -/
def ecFilterAdapter (tokens : List PyStr) : List PyStr :=
  tokens.filterMap fun name =>
    if "EC".toList.isPrefixOf (pyStrip name) then none
    else if "Fragm".toList.isPrefixOf (pyStrip name) then none
    else some (pyStrip (pyRstripChar ')' name))

/-- Token filter of the `" ("` branches of
`Uniprot.split_protein_names_field` (uniprot_adapter.py). -/
def fragFilterAdapter (tokens : List PyStr) : List PyStr :=
  tokens.filterMap fun name =>
    if "Fragm".toList.isPrefixOf (pyStrip name) then none
    else some (pyStrip (pyRstripChar ')' name))

/-- The `[Cleaved` / `[Includes` branch of
`Uniprot.split_protein_names_field` (uniprot_adapter.py); the two Python
branches are textually identical up to the marker.  `protein_names` there
is a plain string, so `protein_names[0]` is its FIRST CHARACTER (an
`IndexError` on an empty clip, `.exn` here), and the two split conditions
test that one-character string. -/
def clippedNamesAdapter (v marker : PyStr) : SplitResult :=
  let clipped := match indexOfSeq marker v with
                 | some i => v.take i
                 | none => v
  let pn := pyStrip (replaceSeq fragMarker [] clipped)
  match pn with
  | [] => .exn
  | c :: _ =>
    if containsSeq "(EC".toList [c] then
      .plist (ecFilterAdapter (splitOnSeq " (".toList [c]))
    else if containsSeq " (".toList [c] then
      .plist (fragFilterAdapter (splitOnSeq " (".toList [c]))
    else .scalar pn

/-- `Uniprot.split_protein_names_field` from uniprot_adapter.py. -/
def splitProteinNamesField (fieldValue : PyStr) : SplitResult :=
  let v := replChar squote '^' (replChar '|' ',' fieldValue)
  if containsSeq "[Cleaved".toList v then
    clippedNamesAdapter v "[Cleaved".toList
  else if containsSeq "[Includes".toList v then
    clippedNamesAdapter v "[Includes".toList
  else if containsSeq "(EC".toList (replaceSeq fragMarker [] v) then
    .plist (ecFilterAdapter (splitOnSeq " (".toList v))
  else if containsSeq " (".toList (replaceSeq fragMarker [] v) then
    .plist (fragFilterAdapter (splitOnSeq " (".toList v))
  else
    .scalar (pyStrip (replaceSeq fragMarker [] v))

/-- Token filter of the `"(EC"` branches of
`Uniprot_data.clean_uniprot_data_for_nodes` (protein.py): same drops, but
kept tokens are `name.replace(")", "").strip()` when `name.strip()` ends
with `)`, else `name.strip()`. -/
def ecFilterPy (tokens : List PyStr) : List PyStr :=
  tokens.filterMap fun name =>
    if "EC".toList.isPrefixOf (pyStrip name) then none
    else if "Fragm".toList.isPrefixOf (pyStrip name) then none
    else if endsWithChar ')' (pyStrip name) then
      some (pyStrip (removeChar ')' name))
    else some (pyStrip name)

/-- Token filter of the `" ("` branches of
`Uniprot_data.clean_uniprot_data_for_nodes` (protein.py). -/
def fragFilterPy (tokens : List PyStr) : List PyStr :=
  tokens.filterMap fun name =>
    if "Fragm".toList.isPrefixOf (pyStrip name) then none
    else if endsWithChar ')' (pyStrip name) then
      some (pyStrip (removeChar ')' name))
    else some (pyStrip name)

/-- The `[Cleaved` / `[Includes` branch of the protein-names part of
`Uniprot_data.clean_uniprot_data_for_nodes` (protein.py): here
`protein_names` is the LIST `[prefix]`, so `protein_names[0]` is the whole
clipped prefix and the split branches are live. -/
def clippedNamesPy (v marker : PyStr) : List PyStr :=
  let clipped := match indexOfSeq marker v with
                 | some i => v.take i
                 | none => v
  let pn0 := pyStrip (replaceSeq fragMarker [] clipped)
  if containsSeq "(EC".toList pn0 then
    ecFilterPy (splitOnSeq " (".toList pn0)
  else if containsSeq " (".toList pn0 then
    fragFilterPy (splitOnSeq " (".toList pn0)
  else [pn0]

/-- The protein-names part of `Uniprot_data.clean_uniprot_data_for_nodes`
(protein.py, lines 754-848); always returns a list. -/
def cleanProteinNamesPy (v : PyStr) : List PyStr :=
  if containsSeq "[Cleaved".toList v then
    clippedNamesPy v "[Cleaved".toList
  else if containsSeq "[Includes".toList v then
    clippedNamesPy v "[Includes".toList
  else if containsSeq "(EC".toList (replaceSeq fragMarker [] v) then
    ecFilterPy (splitOnSeq " (".toList v)
  else if containsSeq " (".toList (replaceSeq fragMarker [] v) then
    fragFilterPy (splitOnSeq " (".toList v)
  else
    [pyStrip (replaceSeq fragMarker [] v)]

/-- One `v[v.index("[") + 1 : v.index("]")].split(":")[1].strip()` step of
`Uniprot.split_virus_hosts_field`; `none` where Python raises
(`ValueError` for a missing bracket, `IndexError` for a missing colon). -/
def virusHostBracket (v : PyStr) : Option PyStr :=
  match indexOfSeq "[".toList v, indexOfSeq "]".toList v with
  | some i, some j =>
    ((splitOnChar ':' ((v.take j).drop (i + 1))).get? 1).map pyStrip
  | _, _ => none

/-- `Uniprot.split_virus_hosts_field` from uniprot_adapter.py. -/
def splitVirusHostsField (fieldValue : Option PyStr) : SplitResult :=
  match fieldValue with
  | none => .noneV
  | some v =>
    if v = [] then .noneV
    else if containsSeq ";".toList v then
      match (splitOnChar ';' v).mapM virusHostBracket with
      | none => .exn
      | some l => .plist l
    else
      match virusHostBracket v with
      | none => .exn
      | some s => .scalar s

example :
    splitVirusHostsField (some
      "Pyrobaculum arsenaticum [TaxID: 121277]; Pyrobaculum oguniense [TaxID: 99007]".toList) =
    .plist ["121277".toList, "99007".toList] := by decide

example : splitProteinNamesField
    "Acetate kinase (EC 2.7.2.1) (Acetokinase)".toList =
    .plist ["Acetate kinase".toList, "Acetokinase".toList] := by decide

/-- A property value in a node's property dictionary: a string, a list of
strings, or an integer (from `int(...)` coercion). -/
inductive PVal where
  | vs : PyStr → PVal
  | vl : List PyStr → PVal
  | vi : Int → PVal
deriving DecidableEq, Repr

/-- Python truthiness of a property value (`if ensg_ids:`-style tests). -/
def pvTruthy : PVal → Bool
  | .vs s => s ≠ []
  | .vl l => l ≠ []
  | .vi n => n ≠ 0

/-- A Python dict with string keys, embedded as an association list in
insertion order (assignment to an existing key updates in place, a new key
is appended — CPython dict semantics). -/
abbrev PyDict (α : Type) := List (PyStr × α)

/-- Python `d[k] = v`. -/
def dictSet {α : Type} : PyDict α → PyStr → α → PyDict α
  | [], k, v => [(k, v)]
  | (k1, v1) :: rest, k, v =>
    if k1 = k then (k, v) :: rest else (k1, v1) :: dictSet rest k v

/-- Python `d.get(k)`. -/
def dictGet {α : Type} (m : PyDict α) (k : PyStr) : Option α :=
  (m.find? (fun p => p.1 == k)).map (·.2)

/-- Python `k in d`. -/
def dictHasKey {α : Type} (m : PyDict α) (k : PyStr) : Bool :=
  (dictGet m k).isSome

/-- A record's property bag (`_props`, `protein_props`, ...). -/
abbrev Props := PyDict PVal

/-- A raised Python exception, by class. -/
inductive PyErr where
  | attributeError : PyErr
  | valueError : PyErr
  | indexError : PyErr
  | typeError : PyErr
deriving DecidableEq, Repr

/-- External collaborators of the UniProt adapter:
`bioregistry.normalize_curie` and the pypath `mapping.map_name` id-mapping
service (both out-of-scope I/O per the spec, passed in as functions). -/
structure UEnv where
  norm : PyStr → PyStr
  mapName : PyStr → List PyStr

/-- `Uniprot.ensembl_process` from uniprot_adapter.py.  The Python code
accumulates gene ids in a `set` and then lists it; the embedding keeps
first-insertion order (the set's hash order is an implementation detail;
only membership and cardinality matter downstream). -/
def ensemblProcess (mapName : PyStr → List PyStr) (ens : PVal) :
    PVal × PVal :=
  let listedEnst0 : List PyStr :=
    match ens with
    | .vs s => [s]
    | .vl l => l
    | .vi _ => []
  let listedEnst := listedEnst0.map (fun e => (splitOnSeq " [".toList e).headD [])
  let ensg := listedEnst.foldl
    (fun acc enst =>
      match mapName ((splitOnChar '.' enst).headD []) with
      | [] => acc
      | g :: _ => if g = [] then acc else if g ∈ acc then acc else acc ++ [g])
    ([] : List PyStr)
  let ensgV : PVal := if ensg.length = 1 then .vs (ensg.headD []) else .vl ensg
  let enstV : PVal :=
    if listedEnst.length = 1 then .vs (listedEnst.headD []) else .vl listedEnst
  (enstV, ensgV)

/-- `Uniprot.protein_properties` from uniprot_adapter.py (`__init__`). -/
def uniprotProteinProperties : List PyStr :=
  ["secondary_ids".toList, "length".toList, "mass".toList,
   "protein names".toList, "proteome".toList, "ec".toList,
   "virus hosts".toList, "organism-id".toList]

/-- `Uniprot.gene_properties` from uniprot_adapter.py (`__init__`). -/
def uniprotGeneProperties : List PyStr :=
  ["genes".toList, "database(GeneID)".toList, "database(KEGG)".toList,
   "database(Ensembl)".toList, "ensembl_gene_ids".toList]

/-- `Uniprot.organism_properties` from uniprot_adapter.py (`__init__`). -/
def uniprotOrganismProperties : List PyStr := ["organism".toList]

/-- Store a field-splitter result into `_props[arg]`, propagating a raised
exception; a `None` result is unreachable here (the caller only splits
truthy values) and stores nothing. -/
def storeSplitResult (props : Props) (arg : PyStr) :
    SplitResult → Except PyErr Props
  | .exn => .error .indexError
  | .noneV => .ok props
  | .scalar s => .ok (dictSet props arg (.vs s))
  | .plist l => .ok (dictSet props arg (.vl l))

/-- One iteration of the `for arg in self.node_attributes` loop of
`Uniprot.get_nodes`: the split/sanitize store followed by the
`database(Ensembl)` / `"protein names"` / `"virus hosts"` special cases.
Note that the `"protein names"` branch calls the parser on the raw field
value unconditionally: an absent value is Python `None` and
`None.replace(...)` raises `AttributeError`. -/
def processAttr (env : UEnv) (look : PyStr → Option PyStr) (props : Props)
    (arg : PyStr) : Except PyErr Props :=
  let step1 : Except PyErr Props :=
    if arg ∈ uniprotSplitFields then
      match look arg with
      | some av =>
        if av ≠ [] then storeSplitResult props arg (fieldsSplitter arg av)
        else .ok props
      | none => .ok props
    else
      match look arg with
      | some av =>
        if av ≠ [] then .ok (dictSet props arg (.vs (sanitizeField av)))
        else .ok props
      | none => .ok props
  match step1 with
  | .error e => .error e
  | .ok props1 =>
    if arg = "database(Ensembl)".toList ∧ dictHasKey props1 arg then
      match dictGet props1 arg with
      | some ensv =>
        let r := ensemblProcess env.mapName ensv
        let props2 := dictSet props1 arg r.1
        if pvTruthy r.2 then
          .ok (dictSet props2 "ensembl_gene_ids".toList r.2)
        else .ok props2
      | none => .ok props1
    else if arg = "protein names".toList then
      match look arg with
      | none => .error .attributeError
      | some av => storeSplitResult props1 arg (splitProteinNamesField av)
    else if arg = "virus hosts".toList then
      match splitVirusHostsField (look arg) with
      | .exn => .error .valueError
      | .noneV => .ok props1
      | .scalar s =>
        if s ≠ [] then .ok (dictSet props1 arg (.vs s)) else .ok props1
      | .plist l =>
        if l ≠ [] then .ok (dictSet props1 arg (.vl l)) else .ok props1
    else .ok props1

/-- Accumulator of the property-routing loop of `Uniprot.get_nodes`
(`protein_props` / `gene_props` / `organism_props` plus the `gene_id` and
`organism_id` strings, both initially `""`). -/
structure BagsAcc where
  proteinProps : Props
  geneProps : Props
  organismProps : Props
  geneId : PyStr
  organismId : PyStr
deriving DecidableEq, Repr

/-- The numeric fields coerced with `int(...)` in `Uniprot.get_nodes`. -/
def uniprotNumericKeys : List PyStr :=
  ["length".toList, "mass".toList, "organism-id".toList]

/-- One iteration of the `for k in _props.keys()` routing loop of
`Uniprot.get_nodes`.  `int(_props[k].replace(",", ""))` raises
`AttributeError` on a list value and `ValueError` on non-numeric content;
`"ncbigene:" + _props[k]` raises `TypeError` on a list value. -/
def processBagKey (env : UEnv) (props : Props) (acc : BagsAcc)
    (kv : PyStr × PVal) : Except PyErr BagsAcc :=
  let k := kv.1
  let v := kv.2
  if k ∈ uniprotProteinProperties then
    if k ∈ uniprotNumericKeys then
      match v with
      | .vs s =>
        match pyInt (removeChar ',' s) with
        | none => .error .valueError
        | some n =>
          let pp := dictSet acc.proteinProps (replChar '-' '_' k) (.vi n)
          if k = "organism-id".toList then
            .ok { acc with proteinProps := pp,
                           organismId := env.norm ("ncbitaxon:".toList ++ s) }
          else .ok { acc with proteinProps := pp }
      | _ => .error .attributeError
    else
      .ok { acc with proteinProps :=
              dictSet acc.proteinProps (replChar '-' '_' (replChar ' ' '_' k)) v }
  else if k ∈ uniprotGeneProperties ∧ dictHasKey props "genes".toList ∧
      dictHasKey props "database(GeneID)".toList then
    if containsSeq "database".toList k then
      if containsSeq "GeneID".toList k then
        match v with
        | .vs s => .ok { acc with geneId := env.norm ("ncbigene:".toList ++ s) }
        | _ => .error .typeError
      else
        match (splitOnChar '(' k).get? 1 with
        | none => .error .indexError
        | some inner =>
          let innerKey := ((splitOnChar ')' inner).headD []).map Char.toLower
          .ok { acc with geneProps := dictSet acc.geneProps innerKey v }
    else .ok { acc with geneProps := dictSet acc.geneProps k v }
  else if k ∈ uniprotOrganismProperties then
    .ok { acc with organismProps := dictSet acc.organismProps k v }
  else .ok acc

/-- The constant `source` / `licence` / `version` properties set on every
bag by `Uniprot.get_nodes` (provenance fields from `Uniprot.__init__`). -/
def uniprotConstProps (props : Props) : Props :=
  dictSet (dictSet (dictSet props
    "source".toList (.vs "uniprot".toList))
    "licence".toList (.vs "CC BY 4.0".toList))
    "version".toList (.vs "2022_04".toList)

/-- A node tuple `(id, label, properties)`. -/
abbrev UNode := PyStr × PyStr × Props

/-- The body of the `for protein in self.uniprot_ids` loop of
`Uniprot.get_nodes`: yields the protein node, plus the gene and organism
nodes when their ids were set. -/
def processRecord (env : UEnv) (attrs : List PyStr)
    (look : PyStr → Option PyStr) (proteinAcc : PyStr) :
    Except PyErr (List UNode) := do
  let props ← attrs.foldlM (processAttr env look) ([] : Props)
  let acc ← props.foldlM (processBagKey env props)
    ⟨[], [], [], [], []⟩
  let proteinId := env.norm ("uniprot:".toList ++ proteinAcc)
  let nodes := [(proteinId, "protein".toList, uniprotConstProps acc.proteinProps)]
  let nodes := if acc.geneId ≠ [] then
      nodes ++ [(acc.geneId, "gene".toList, uniprotConstProps acc.geneProps)]
    else nodes
  let nodes := if acc.organismId ≠ [] then
      nodes ++ [(acc.organismId, "organism".toList,
                 uniprotConstProps acc.organismProps)]
    else nodes
  return nodes

/-- `Uniprot.get_nodes` from uniprot_adapter.py, over the already-downloaded
data (`data field protein = raw value`); an uncaught per-record exception
aborts the whole run (there is no exception handling in the source). -/
def getNodes (env : UEnv) (attrs : List PyStr)
    (data : PyStr → PyStr → Option PyStr) : List PyStr →
    Except PyErr (List UNode)
  | [] => .ok []
  | p :: ps => do
    let r ← processRecord env attrs (fun arg => data arg p) p
    let rest ← getNodes env attrs data ps
    return r ++ rest

/-- Modelled from the spec: the per-record recoverable `FieldFormatError`
policy ("the offending record's derived entity is skipped ... and the run
continues"), which `Uniprot.get_nodes` itself does not implement.  Used
only as the spec-side contrast for the error-handling claim. -/
def getNodesSkipBad (env : UEnv) (attrs : List PyStr)
    (data : PyStr → PyStr → Option PyStr) : List PyStr → List UNode
  | [] => []
  | p :: ps =>
    match processRecord env attrs (fun arg => data arg p) p with
    | .error _ => getNodesSkipBad env attrs data ps
    | .ok r => r ++ getNodesSkipBad env attrs data ps

/-- An edge tuple `(id, source, target, label, properties)`. -/
abbrev UEdge := Option PyStr × PyStr × PyStr × PyStr × Props

/-- The body of the `for protein in self.uniprot_ids` loop of
`Uniprot.get_edges`.  The `PROTEIN_TO_ORGANISM` branch dereferences the
raw `organism-id` value without a presence check, so an absent value is
`None.replace(...)`: `AttributeError`. -/
def getEdgesRecord (env : UEnv) (edgeTypes : List PyStr)
    (data : PyStr → PyStr → Option PyStr) (p : PyStr) :
    Except PyErr (List UEdge) := do
  let proteinId := env.norm ("uniprot:".toList ++ p)
  let geneEdges ←
    if "GENE_TO_PROTEIN".toList ∈ edgeTypes then
      match fieldsSplitter "database(GeneID)".toList
          ((data "database(GeneID)".toList p).getD []) with
      | .exn => .error .indexError
      | .noneV => .ok ([] : List UEdge)
      | .scalar s =>
        if s ≠ [] then
          .ok [(none, env.norm ("ncbigene:".toList ++ s), proteinId,
                "Encodes".toList, ([] : Props))]
        else .ok []
      | .plist l => if l ≠ [] then .error .typeError else .ok []
    else .ok []
  let orgEdges ←
    if "PROTEIN_TO_ORGANISM".toList ∈ edgeTypes then
      match data "organism-id".toList p with
      | none => .error .attributeError
      | some v =>
        let o := sanitizeField v
        if o ≠ [] then
          .ok [(none, proteinId, env.norm ("ncbitaxon:".toList ++ o),
                "Belongs_To".toList, ([] : Props))]
        else .ok ([] : List UEdge)
    else .ok []
  return geneEdges ++ orgEdges

/-- `Uniprot.get_edges` from uniprot_adapter.py: assembles the edge list
and returns it only when non-empty — `if edge_list: return edge_list`
falls through to an implicit `return None` otherwise. -/
def getEdges (env : UEnv) (edgeTypes : List PyStr)
    (data : PyStr → PyStr → Option PyStr) (ids : List PyStr) :
    Except PyErr (Option (List UEdge)) := do
  let el ← ids.foldlM
    (fun acc p => do
      let es ← getEdgesRecord env edgeTypes data p
      return acc ++ es)
    ([] : List UEdge)
  match el with
  | [] => return none
  | _ => return some el

/-- The `UniprotNodeField` enum from uniprot_adapter.py. -/
inductive UniprotNodeField where
  | PROTEIN_ID | PROTEIN_SECONDARY_IDS | PROTEIN_LENGTH | PROTEIN_MASS
  | PROTEIN_ORGANISM | PROTEIN_ORGANISM_ID | PROTEIN_NAMES | PROTEIN_PROTEOME
  | PROTEIN_EC | PROTEIN_GENE_NAMES | PROTEIN_ENSEMBL_GENE_IDS
  | PROTEIN_ENTREZ_GENE_IDS | PROTEIN_VIRUS_HOSTS | PROTEIN_KEGG_IDS
deriving DecidableEq, Repr

/-- The `.value` of each `UniprotNodeField` member. -/
def UniprotNodeField.val : UniprotNodeField → PyStr
  | .PROTEIN_ID => "id".toList
  | .PROTEIN_SECONDARY_IDS => "secondary_ids".toList
  | .PROTEIN_LENGTH => "length".toList
  | .PROTEIN_MASS => "mass".toList
  | .PROTEIN_ORGANISM => "organism".toList
  | .PROTEIN_ORGANISM_ID => "organism-id".toList
  | .PROTEIN_NAMES => "protein names".toList
  | .PROTEIN_PROTEOME => "proteome".toList
  | .PROTEIN_EC => "ec".toList
  | .PROTEIN_GENE_NAMES => "genes".toList
  | .PROTEIN_ENSEMBL_GENE_IDS => "database(Ensembl)".toList
  | .PROTEIN_ENTREZ_GENE_IDS => "database(GeneID)".toList
  | .PROTEIN_VIRUS_HOSTS => "virus hosts".toList
  | .PROTEIN_KEGG_IDS => "database(KEGG)".toList

/-- All `UniprotNodeField` members in declaration order (the default
`node_fields` selection of `Uniprot.__init__`). -/
def allUniprotNodeFields : List UniprotNodeField :=
  [.PROTEIN_ID, .PROTEIN_SECONDARY_IDS, .PROTEIN_LENGTH, .PROTEIN_MASS,
   .PROTEIN_ORGANISM, .PROTEIN_ORGANISM_ID, .PROTEIN_NAMES, .PROTEIN_PROTEOME,
   .PROTEIN_EC, .PROTEIN_GENE_NAMES, .PROTEIN_ENSEMBL_GENE_IDS,
   .PROTEIN_ENTREZ_GENE_IDS, .PROTEIN_VIRUS_HOSTS, .PROTEIN_KEGG_IDS]

/-- One cleaned record handed to the accumulation loop of
`Uniprot_data.generate_nodes_and_edges` (protein.py, lines 552-708): the
per-entity property bags produced by `clean_uniprot_data_for_nodes` plus
the sensitive-element replacement, and the `genes` / `entrez_id` values as
Python `str(...)` strings, where `"nan"` encodes a missing value. -/
structure PRow where
  accession : PyStr
  genes : PyStr
  entrezId : PyStr
  proteinBag : Props
  geneBag : Props
  organismBag : Props
  taxId : PyStr
deriving DecidableEq, Repr

/-- Accumulators of the `generate_nodes_and_edges` loop (protein.py):
duplicate-checking node lists, the seen-`entrez_id` list, and the two edge
lists. -/
structure PDedupAcc where
  proteins : List Props
  genes : List Props
  organisms : List Props
  entrezSeen : List PyStr
  geneToProtein : List (PyStr × PyStr)
  proteinToOrganism : List (PyStr × PyStr)
deriving DecidableEq, Repr

/-- The protein-organism edge append of the `generate_nodes_and_edges`
loop (protein.py, line 668). -/
def dedupP2O (acc : PDedupAcc) (r : PRow) : PDedupAcc :=
  { acc with proteinToOrganism := acc.proteinToOrganism ++ [(r.accession, r.taxId)] }

/-- The protein-node duplicate check of the `generate_nodes_and_edges`
loop (protein.py, line 673). -/
def dedupProtein (acc : PDedupAcc) (r : PRow) : PDedupAcc :=
  if r.proteinBag ∉ acc.proteins then
    { acc with proteins := acc.proteins ++ [r.proteinBag] }
  else acc

/-- The gene-node duplicate check of the `generate_nodes_and_edges` loop
(protein.py, line 677): genes and entrez id not NaN, bag not yet seen,
entrez id not yet seen. -/
def dedupGene (acc : PDedupAcc) (r : PRow) : PDedupAcc :=
  if r.genes ≠ "nan".toList ∧ r.entrezId ≠ "nan".toList ∧
      r.geneBag ∉ acc.genes ∧ r.entrezId ∉ acc.entrezSeen then
    { acc with entrezSeen := acc.entrezSeen ++ [r.entrezId],
               genes := acc.genes ++ [r.geneBag] }
  else acc

/-- The gene-protein edge append of the `generate_nodes_and_edges` loop
(protein.py, line 687). -/
def dedupG2P (acc : PDedupAcc) (r : PRow) : PDedupAcc :=
  if r.genes ≠ "nan".toList ∧ r.entrezId ≠ "nan".toList then
    { acc with geneToProtein := acc.geneToProtein ++ [(r.entrezId, r.accession)] }
  else acc

/-- The organism-node duplicate check of the `generate_nodes_and_edges`
loop (protein.py, line 697). -/
def dedupOrganism (acc : PDedupAcc) (r : PRow) : PDedupAcc :=
  if r.organismBag ∉ acc.organisms then
    { acc with organisms := acc.organisms ++ [r.organismBag] }
  else acc

/-- One iteration of the `for index, row in uniprot_df.iterrows()` loop of
`Uniprot_data.generate_nodes_and_edges` (protein.py, lines 663-700), in
source order: protein-organism edge, protein-node duplicate check,
gene-node duplicate check, gene-protein edge, organism-node duplicate
check. -/
def generateNodesDedupStep (acc : PDedupAcc) (r : PRow) : PDedupAcc :=
  dedupOrganism (dedupG2P (dedupGene (dedupProtein (dedupP2O acc r) r) r) r) r

/-- The accumulation loop of `Uniprot_data.generate_nodes_and_edges`
(protein.py) with its `early_stopping` row limit
(`if early_stopping is not None and index == early_stopping: break`). -/
def generateNodesDedupAux (es : Option Nat) (i : Nat) (acc : PDedupAcc) :
    List PRow → PDedupAcc
  | [] => acc
  | r :: rs =>
    match es with
    | some n =>
      if i = n then acc
      else generateNodesDedupAux es (i + 1) (generateNodesDedupStep acc r) rs
    | none => generateNodesDedupAux es (i + 1) (generateNodesDedupStep acc r) rs

/-- `Uniprot_data.generate_nodes_and_edges` from protein.py, restricted to
its node/edge accumulation over already-cleaned rows. -/
def generateNodesDedup (es : Option Nat) (rows : List PRow) : PDedupAcc :=
  generateNodesDedupAux es 0 ⟨[], [], [], [], [], []⟩ rows

/-- The `GONodeType` enum from go_adapter.py. -/
inductive GONodeType where
  | PROTEIN | CELLULAR_COMPONENT | BIOLOGICAL_PROCESS | MOLECULAR_FUNCTION
  | DOMAIN
deriving DecidableEq, Repr

/-- The `GOEdgeType` enum from go_adapter.py. -/
inductive GOEdgeType where
  | PROTEIN_TO_CELLULAR_COMPONENT | PROTEIN_TO_BIOLOGICAL_PROCESS
  | PROTEIN_TO_MOLECULAR_FUNCTION
  | DOMAIN_TO_CELLULAR_COMPONENT | DOMAIN_TO_BIOLOGICAL_PROCESS
  | DOMAIN_TO_MOLECULAR_FUNCTION
  | CELLULAR_COMPONENT_TO_CELLULAR_COMPONENT
  | BIOLOGICAL_PROCESS_TO_BIOLOGICAL_PROCESS
  | MOLECULAR_FUNCTION_TO_MOLECULAR_FUNCTION
  | BIOLOGICAL_PROCESS_TO_MOLECULAR_FUNCTION
deriving DecidableEq, Repr

/-- All `GONodeType` members (the default `node_types` selection). -/
def allGONodeTypes : List GONodeType :=
  [.PROTEIN, .CELLULAR_COMPONENT, .BIOLOGICAL_PROCESS, .MOLECULAR_FUNCTION,
   .DOMAIN]

/-- All `GOEdgeType` members (the default `edge_types` selection). -/
def allGOEdgeTypes : List GOEdgeType :=
  [.PROTEIN_TO_CELLULAR_COMPONENT, .PROTEIN_TO_BIOLOGICAL_PROCESS,
   .PROTEIN_TO_MOLECULAR_FUNCTION, .DOMAIN_TO_CELLULAR_COMPONENT,
   .DOMAIN_TO_BIOLOGICAL_PROCESS, .DOMAIN_TO_MOLECULAR_FUNCTION,
   .CELLULAR_COMPONENT_TO_CELLULAR_COMPONENT,
   .BIOLOGICAL_PROCESS_TO_BIOLOGICAL_PROCESS,
   .MOLECULAR_FUNCTION_TO_MOLECULAR_FUNCTION,
   .BIOLOGICAL_PROCESS_TO_MOLECULAR_FUNCTION]

/-- `GO.check_node_types_of_edges` from go_adapter.py (`__init__`). -/
def checkNodeTypesOfEdges : GOEdgeType → List GONodeType
  | .PROTEIN_TO_CELLULAR_COMPONENT => [.PROTEIN, .CELLULAR_COMPONENT]
  | .PROTEIN_TO_BIOLOGICAL_PROCESS => [.PROTEIN, .BIOLOGICAL_PROCESS]
  | .PROTEIN_TO_MOLECULAR_FUNCTION => [.PROTEIN, .MOLECULAR_FUNCTION]
  | .DOMAIN_TO_CELLULAR_COMPONENT => [.DOMAIN, .CELLULAR_COMPONENT]
  | .DOMAIN_TO_BIOLOGICAL_PROCESS => [.DOMAIN, .BIOLOGICAL_PROCESS]
  | .DOMAIN_TO_MOLECULAR_FUNCTION => [.DOMAIN, .MOLECULAR_FUNCTION]
  | .CELLULAR_COMPONENT_TO_CELLULAR_COMPONENT => [.CELLULAR_COMPONENT]
  | .BIOLOGICAL_PROCESS_TO_BIOLOGICAL_PROCESS => [.BIOLOGICAL_PROCESS]
  | .MOLECULAR_FUNCTION_TO_MOLECULAR_FUNCTION => [.MOLECULAR_FUNCTION]
  | .BIOLOGICAL_PROCESS_TO_MOLECULAR_FUNCTION =>
      [.BIOLOGICAL_PROCESS, .MOLECULAR_FUNCTION]

/-- `GO.check_edge_type_duals` from go_adapter.py (`__init__`). -/
def checkEdgeTypeDuals : GOEdgeType → String
  | .PROTEIN_TO_CELLULAR_COMPONENT => "protein-cellular component"
  | .PROTEIN_TO_BIOLOGICAL_PROCESS => "protein-biological process"
  | .PROTEIN_TO_MOLECULAR_FUNCTION => "protein-molecular function"
  | .CELLULAR_COMPONENT_TO_CELLULAR_COMPONENT =>
      "cellular component-cellular component"
  | .BIOLOGICAL_PROCESS_TO_BIOLOGICAL_PROCESS =>
      "biological process-biological process"
  | .MOLECULAR_FUNCTION_TO_MOLECULAR_FUNCTION =>
      "molecular function-molecular function"
  | .BIOLOGICAL_PROCESS_TO_MOLECULAR_FUNCTION =>
      "biological process-molecular function"
  | .DOMAIN_TO_CELLULAR_COMPONENT => "domain-cellular component"
  | .DOMAIN_TO_BIOLOGICAL_PROCESS => "domain-biological process"
  | .DOMAIN_TO_MOLECULAR_FUNCTION => "domain-molecular function"

/-- `GO.protein_to_go_edge_types` from go_adapter.py. -/
def proteinToGoEdgeTypes : List GOEdgeType :=
  [.PROTEIN_TO_CELLULAR_COMPONENT, .PROTEIN_TO_BIOLOGICAL_PROCESS,
   .PROTEIN_TO_MOLECULAR_FUNCTION]

/-- `GO.go_to_go_edge_types` from go_adapter.py. -/
def goToGoEdgeTypes : List GOEdgeType :=
  [.CELLULAR_COMPONENT_TO_CELLULAR_COMPONENT,
   .BIOLOGICAL_PROCESS_TO_BIOLOGICAL_PROCESS,
   .MOLECULAR_FUNCTION_TO_MOLECULAR_FUNCTION,
   .BIOLOGICAL_PROCESS_TO_MOLECULAR_FUNCTION]

/-- `GO.domain_to_go_edge_types` from go_adapter.py. -/
def domainToGoEdgeTypes : List GOEdgeType :=
  [.DOMAIN_TO_CELLULAR_COMPONENT, .DOMAIN_TO_BIOLOGICAL_PROCESS,
   .DOMAIN_TO_MOLECULAR_FUNCTION]

/-- `str(...)` of a `GONodeType` member, as interpolated into log lines. -/
def gonName : GONodeType → String
  | .PROTEIN => "PROTEIN"
  | .CELLULAR_COMPONENT => "CELLULAR_COMPONENT"
  | .BIOLOGICAL_PROCESS => "BIOLOGICAL_PROCESS"
  | .MOLECULAR_FUNCTION => "MOLECULAR_FUNCTION"
  | .DOMAIN => "DOMAIN"

/-- `str(...)` of a `GOEdgeType` member, as interpolated into log lines. -/
def goeName : GOEdgeType → String
  | .PROTEIN_TO_CELLULAR_COMPONENT => "PROTEIN_TO_CELLULAR_COMPONENT"
  | .PROTEIN_TO_BIOLOGICAL_PROCESS => "PROTEIN_TO_BIOLOGICAL_PROCESS"
  | .PROTEIN_TO_MOLECULAR_FUNCTION => "PROTEIN_TO_MOLECULAR_FUNCTION"
  | .DOMAIN_TO_CELLULAR_COMPONENT => "DOMAIN_TO_CELLULAR_COMPONENT"
  | .DOMAIN_TO_BIOLOGICAL_PROCESS => "DOMAIN_TO_BIOLOGICAL_PROCESS"
  | .DOMAIN_TO_MOLECULAR_FUNCTION => "DOMAIN_TO_MOLECULAR_FUNCTION"
  | .CELLULAR_COMPONENT_TO_CELLULAR_COMPONENT =>
      "CELLULAR_COMPONENT_TO_CELLULAR_COMPONENT"
  | .BIOLOGICAL_PROCESS_TO_BIOLOGICAL_PROCESS =>
      "BIOLOGICAL_PROCESS_TO_BIOLOGICAL_PROCESS"
  | .MOLECULAR_FUNCTION_TO_MOLECULAR_FUNCTION =>
      "MOLECULAR_FUNCTION_TO_MOLECULAR_FUNCTION"
  | .BIOLOGICAL_PROCESS_TO_MOLECULAR_FUNCTION =>
      "BIOLOGICAL_PROCESS_TO_MOLECULAR_FUNCTION"

/-- The `logger.error` line of `GO.set_node_and_edge_types` for a missing
required node type. -/
def errMsgNodeType (nt : GONodeType) : String :=
  "GONodeType." ++ gonName nt ++ " must be included in node_types list"

/-- The `logger.error` line of `GO.set_edge_labels` for a missing required
edge type. -/
def errMsgEdgeType (et : GOEdgeType) : String :=
  "GOEdgeType." ++ goeName et ++ " must be included in edge_types list"

/-- The members of the edge-label enum classes of go_adapter.py, each
carrying its class (enum membership in Python is by class). Constructor
order follows the class lists `protein_enum_classes`, `go_enum_classes`,
`domain_enum_classes` and member declaration order within each class. -/
inductive GOEdgeLabel where
  | pcc_LOCATED_IN | pcc_IS_ACTIVE_IN | pcc_PART_OF
  | pbp_INVOLVED_IN
  | pmf_ENABLES | pmf_CONTRIBUTES_TO
  | bpbp_IS_A | bpbp_POSITIVELY_REGULATES | bpbp_NEGATIVELY_REGULATES
  | bpbp_PART_OF
  | bpmf_POSITIVELY_REGULATES | bpmf_NEGATIVELY_REGULATES
  | mfmf_IS_A | mfmf_POSITIVELY_REGULATES | mfmf_NEGATIVELY_REGULATES
  | mfmf_PART_OF
  | cccc_IS_A | cccc_PART_OF
  | dcc_LOCATED_IN
  | dbp_INVOLVED_IN
  | dmf_ENABLES
deriving DecidableEq, Repr

/-- The `.value` of an edge-label member. -/
def GOEdgeLabel.val : GOEdgeLabel → String
  | .pcc_LOCATED_IN => "located_in"
  | .pcc_IS_ACTIVE_IN => "is_active_in"
  | .pcc_PART_OF => "part_of"
  | .pbp_INVOLVED_IN => "involved_in"
  | .pmf_ENABLES => "enables"
  | .pmf_CONTRIBUTES_TO => "contributes_to"
  | .bpbp_IS_A => "is_a"
  | .bpbp_POSITIVELY_REGULATES => "positively_regulates"
  | .bpbp_NEGATIVELY_REGULATES => "negatively_regulates"
  | .bpbp_PART_OF => "part_of"
  | .bpmf_POSITIVELY_REGULATES => "positively_regulates"
  | .bpmf_NEGATIVELY_REGULATES => "negatively_regulates"
  | .mfmf_IS_A => "is_a"
  | .mfmf_POSITIVELY_REGULATES => "positively_regulates"
  | .mfmf_NEGATIVELY_REGULATES => "negatively_regulates"
  | .mfmf_PART_OF => "part_of"
  | .cccc_IS_A => "is_a"
  | .cccc_PART_OF => "part_of"
  | .dcc_LOCATED_IN => "located_in"
  | .dbp_INVOLVED_IN => "involved_in"
  | .dmf_ENABLES => "enables"

/-- The `neccessary_edge_type()` classmethod of an edge label's class. -/
def GOEdgeLabel.necessaryEdgeType : GOEdgeLabel → GOEdgeType
  | .pcc_LOCATED_IN | .pcc_IS_ACTIVE_IN | .pcc_PART_OF =>
      .PROTEIN_TO_CELLULAR_COMPONENT
  | .pbp_INVOLVED_IN => .PROTEIN_TO_BIOLOGICAL_PROCESS
  | .pmf_ENABLES | .pmf_CONTRIBUTES_TO => .PROTEIN_TO_MOLECULAR_FUNCTION
  | .bpbp_IS_A | .bpbp_POSITIVELY_REGULATES | .bpbp_NEGATIVELY_REGULATES
  | .bpbp_PART_OF => .BIOLOGICAL_PROCESS_TO_BIOLOGICAL_PROCESS
  | .bpmf_POSITIVELY_REGULATES | .bpmf_NEGATIVELY_REGULATES =>
      .BIOLOGICAL_PROCESS_TO_MOLECULAR_FUNCTION
  | .mfmf_IS_A | .mfmf_POSITIVELY_REGULATES | .mfmf_NEGATIVELY_REGULATES
  | .mfmf_PART_OF => .MOLECULAR_FUNCTION_TO_MOLECULAR_FUNCTION
  | .cccc_IS_A | .cccc_PART_OF => .CELLULAR_COMPONENT_TO_CELLULAR_COMPONENT
  | .dcc_LOCATED_IN => .DOMAIN_TO_CELLULAR_COMPONENT
  | .dbp_INVOLVED_IN => .DOMAIN_TO_BIOLOGICAL_PROCESS
  | .dmf_ENABLES => .DOMAIN_TO_MOLECULAR_FUNCTION

/-- Which of the three class lists of `GO.set_edge_labels` an edge label's
class belongs to. -/
inductive LabelGroup where
  | proteinGo | goGo | domainGo
deriving DecidableEq, Repr

/-- The class-list membership of each edge label. -/
def GOEdgeLabel.group : GOEdgeLabel → LabelGroup
  | .pcc_LOCATED_IN | .pcc_IS_ACTIVE_IN | .pcc_PART_OF | .pbp_INVOLVED_IN
  | .pmf_ENABLES | .pmf_CONTRIBUTES_TO => .proteinGo
  | .bpbp_IS_A | .bpbp_POSITIVELY_REGULATES | .bpbp_NEGATIVELY_REGULATES
  | .bpbp_PART_OF | .bpmf_POSITIVELY_REGULATES | .bpmf_NEGATIVELY_REGULATES
  | .mfmf_IS_A | .mfmf_POSITIVELY_REGULATES | .mfmf_NEGATIVELY_REGULATES
  | .mfmf_PART_OF | .cccc_IS_A | .cccc_PART_OF => .goGo
  | .dcc_LOCATED_IN | .dbp_INVOLVED_IN | .dmf_ENABLES => .domainGo

/-- All edge-label members in class order. -/
def allGOEdgeLabels : List GOEdgeLabel :=
  [.pcc_LOCATED_IN, .pcc_IS_ACTIVE_IN, .pcc_PART_OF, .pbp_INVOLVED_IN,
   .pmf_ENABLES, .pmf_CONTRIBUTES_TO,
   .bpbp_IS_A, .bpbp_POSITIVELY_REGULATES, .bpbp_NEGATIVELY_REGULATES,
   .bpbp_PART_OF, .bpmf_POSITIVELY_REGULATES, .bpmf_NEGATIVELY_REGULATES,
   .mfmf_IS_A, .mfmf_POSITIVELY_REGULATES, .mfmf_NEGATIVELY_REGULATES,
   .mfmf_PART_OF, .cccc_IS_A, .cccc_PART_OF,
   .dcc_LOCATED_IN, .dbp_INVOLVED_IN, .dmf_ENABLES]

/-- A Python `set.add` on a list kept in first-insertion order. -/
def addUniq (l : List String) (x : String) : List String :=
  if x ∈ l then l else l ++ [x]

/-- Result of `GO.set_node_and_edge_types`: the assigned `node_types` and
`edge_types`, the `edge_filterer` contents, the `logger.error` lines
emitted, and whether the method hit its `return False` (the caller,
`GO.__init__`, ignores that value). -/
structure SnetResult where
  node_types : List GONodeType
  edge_types : List GOEdgeType
  filt : List String
  log : List String
  retFalse : Bool
deriving DecidableEq, Repr

/-- The `for edge_type in edge_types` loop of `GO.set_node_and_edge_types`:
the edge-filterer entry is added BEFORE the dependency check, and the
first missing required node type logs an error and returns `False`,
leaving the remaining edge types unprocessed. -/
def snetLoop (nts : List GONodeType) (flt : List String) :
    List GOEdgeType → List String × List String × Bool
  | [] => (flt, [], false)
  | et :: rest =>
    let flt1 := addUniq flt (checkEdgeTypeDuals et)
    match (checkNodeTypesOfEdges et).find? (fun nt => decide (nt ∉ nts)) with
    | some nt => (flt1, [errMsgNodeType nt], true)
    | none => snetLoop nts flt1 rest

/-- `GO.set_node_and_edge_types` from go_adapter.py.  `if node_types:` and
`if edge_types:` are Python truthiness tests, so `None` and `[]` both fall
back to the full enum. -/
def setNodeAndEdgeTypes (nts0 : Option (List GONodeType))
    (ets0 : Option (List GOEdgeType)) : SnetResult :=
  let nts := match nts0 with
             | some (x :: xs) => x :: xs
             | _ => allGONodeTypes
  match ets0 with
  | some (e :: es) =>
    let r := snetLoop nts [] (e :: es)
    ⟨nts, e :: es, r.1, r.2.1, r.2.2⟩
  | _ =>
    ⟨nts, allGOEdgeTypes,
     allGOEdgeTypes.foldl (fun f et => addUniq f (checkEdgeTypeDuals et)) [],
     [], false⟩

/-- Result of `GO.set_edge_labels`: the three label sets, the
`logger.error` lines, and whether the method hit its `return False`. -/
structure SelResult where
  plabels : List String
  glabels : List String
  dlabels : List String
  log : List String
  retFalse : Bool
deriving DecidableEq, Repr

/-- The `for edge_label in edge_labels` loop of `GO.set_edge_labels`: the
label value is added to its group's set BEFORE the dependency check, and
the first label whose `neccessary_edge_type()` is not among the selected
edge types logs an error and returns `False`. -/
def selLoop (ets : List GOEdgeType) (p g d : List String) :
    List GOEdgeLabel → SelResult
  | [] => ⟨p, g, d, [], false⟩
  | lb :: rest =>
    if lb.necessaryEdgeType ∈ ets then
      selLoop ets
        (if lb.group = .proteinGo then addUniq p lb.val else p)
        (if lb.group = .goGo then addUniq g lb.val else g)
        (if lb.group = .domainGo then addUniq d lb.val else d) rest
    else
      ⟨(if lb.group = .proteinGo then addUniq p lb.val else p),
       (if lb.group = .goGo then addUniq g lb.val else g),
       (if lb.group = .domainGo then addUniq d lb.val else d),
       [errMsgEdgeType lb.necessaryEdgeType], true⟩

/-- `GO.set_edge_labels` from go_adapter.py.  The default branch extends
per-group value lists over the class lists and converts them to sets; the
embedding keeps the lists (only membership is used downstream). -/
def setEdgeLabels (labels0 : Option (List GOEdgeLabel))
    (ets : List GOEdgeType) : SelResult :=
  match labels0 with
  | some (l :: ls) => selLoop ets [] [] [] (l :: ls)
  | _ =>
    ⟨(allGOEdgeLabels.filter (fun lb => lb.group = .proteinGo)).map (·.val),
     (allGOEdgeLabels.filter (fun lb => lb.group = .goGo)).map (·.val),
     (allGOEdgeLabels.filter (fun lb => lb.group = .domainGo)).map (·.val),
     [], false⟩

/-- The configuration state assembled by `GO.__init__` (go_adapter.py):
type selections, edge filterer, label sets, property fields, annotation
exclusions, and the `test_mode` early-stop limit of 100. -/
structure GOState where
  organism : Option String
  addpfx : Bool
  removeAnn : List String
  node_types : List GONodeType
  edge_types : List GOEdgeType
  filt : List String
  plabels : List String
  glabels : List String
  dlabels : List String
  goNodeFields : List String
  goEdgeFields : List String
  earlyStop : Option Nat
  log : List String
deriving DecidableEq, Repr

/-- `GO.__init__` from go_adapter.py.  `organism` is `None` or a string
(`"*"` or a tax id rendered as a string); node/edge property fields are
passed by enum value. -/
def goInit (organism : Option String) (nts0 : Option (List GONodeType))
    (ets0 : Option (List GOEdgeType)) (labels0 : Option (List GOEdgeLabel))
    (nodeFields0 edgeFields0 : Option (List String)) (addpfx : Bool)
    (testMode : Bool) (removeAnn : List String) : GOState :=
  let snet := setNodeAndEdgeTypes nts0 ets0
  let sel := setEdgeLabels labels0 snet.edge_types
  { organism := organism
    addpfx := addpfx
    removeAnn := removeAnn
    node_types := snet.node_types
    edge_types := snet.edge_types
    filt := snet.filt
    plabels := sel.plabels
    glabels := sel.glabels
    dlabels := sel.dlabels
    goNodeFields := match nodeFields0 with
                    | some (x :: xs) => x :: xs
                    | _ => ["name"]
    goEdgeFields := match edgeFields0 with
                    | some (x :: xs) => x :: xs
                    | _ => ["reference", "evidence_code"]
    earlyStop := if testMode then some 100 else none
    log := snet.log ++ sel.log }

/-- `GO.create_aspect_to_node_label_dict` from go_adapter.py. -/
def aspectToNodeLabelDict (nts : List GONodeType) : List (String × String) :=
  (if GONodeType.CELLULAR_COMPONENT ∈ nts then
     [("C", "cellular component")] else []) ++
  (if GONodeType.BIOLOGICAL_PROCESS ∈ nts then
     [("P", "biological process")] else []) ++
  (if GONodeType.MOLECULAR_FUNCTION ∈ nts then
     [("F", "molecular function")] else [])

/-- Python `dict.get` on a string-keyed association list. -/
def alookup (m : List (String × String)) (k : String) : Option String :=
  (m.find? (fun p => p.1 == k)).map (·.2)

/-- `GO.add_prefix_to_id` from go_adapter.py; `env` is the external
`bioregistry.normalize_curie` collaborator. -/
def addpfxId (env : String → String) (st : GOState) (pre id : String) :
    String :=
  if st.addpfx then env (pre ++ ":" ++ id) else id

/-- One row of `go_annots_df` (columns `entry, qualifier, go_id,
reference, evidence_code`). -/
structure AnnotRow where
  entry : String
  qualifier : String
  go_id : String
  reference : String
  evidence_code : String
deriving DecidableEq, Repr

/-- One annotation object of the per-entry `go_annots` mapping. -/
structure GOAnnot where
  qualifier : String
  go_id : String
  reference : String
  evidence_code : String
deriving DecidableEq, Repr

/-- An edge tuple `(id, source, target, label, properties)` of the GO
adapter. -/
abbrev GOEdge := Option String × String × String × String ×
  List (String × String)

/-- The protein-GO edge property dict: `reference` / `evidence_code` when
enabled in `go_edge_fields` (the Python also tests enum members against
the value list, which is never true and is dropped here). -/
def annotProps (st : GOState) (ref ev : String) : List (String × String) :=
  (if "reference" ∈ st.goEdgeFields then [("reference", ref)] else []) ++
  (if "evidence_code" ∈ st.goEdgeFields then [("evidence_code", ev)] else [])

/-- Python `s.replace(" ", "_")` on label strings, character-level (the
builtin `String.replace` does not reduce in the kernel). -/
def underscoreSpaces (s : String) : String :=
  ⟨replChar ' ' '_' s.data⟩

/-- The edge(s) contributed by one `go_annots_df` row in the protein-GO
pass of `GO.get_go_edges` (all-organisms shape): label
`protein_<qualifier>_<aspect label>`, source the protein, target the GO
term.  The aspect-label lookup values are fixed non-empty strings, so
Python's truthiness test on the `.get` is `isSome` here. -/
def dfRowEdges (st : GOState) (env : String → String)
    (aspect : String → Option String) (r : AnnotRow) : List GOEdge :=
  match aspect r.go_id with
  | none => []
  | some a =>
    if r.evidence_code ∉ st.removeAnn ∧ r.qualifier ∈ st.plabels then
      match alookup (aspectToNodeLabelDict st.node_types) a with
      | none => []
      | some lbl =>
        if ("protein-" ++ lbl) ∈ st.filt then
          [(none, addpfxId env st "uniprot" r.entry,
            addpfxId env st "go" r.go_id,
            "protein_" ++ underscoreSpaces r.qualifier ++ "_" ++
              underscoreSpaces lbl,
            annotProps st r.reference r.evidence_code)]
        else []
    else []

/-- The `for index, row in self.go_annots_df.iterrows()` loop of
`GO.get_go_edges`: the break condition is
`if self.early_stopping and index >= self.early_stopping: break`,
checked on the ROW INDEX after processing each row (`index` is the default
range index, i.e. the row position). -/
def dfPassAux (st : GOState) (env : String → String)
    (aspect : String → Option String) (i : Nat) :
    List AnnotRow → List GOEdge
  | [] => []
  | r :: rs =>
    dfRowEdges st env aspect r ++
    (match st.earlyStop with
     | some n =>
       if n ≠ 0 ∧ n ≤ i then [] else dfPassAux st env aspect (i + 1) rs
     | none => dfPassAux st env aspect (i + 1) rs)

/-- The protein-GO pass of `GO.get_go_edges` over the annotation DataFrame
(all-organisms input shape). -/
def proteinGoDfEdges (st : GOState) (env : String → String)
    (aspect : String → Option String) (rows : List AnnotRow) : List GOEdge :=
  dfPassAux st env aspect 0 rows

/-- The edges contributed by one `(uniprot id, annotations)` entry of the
per-entry protein-GO pass of `GO.get_go_edges` (single-organism shape):
entries not in the SwissProt list are skipped wholesale. -/
def dictItemEdges (st : GOState) (env : String → String)
    (aspect : String → Option String) (swiss : List String)
    (item : String × List GOAnnot) : List GOEdge :=
  if item.1 ∈ swiss then
    item.2.filterMap fun an =>
      match aspect an.go_id with
      | none => none
      | some a =>
        if an.evidence_code ∉ st.removeAnn ∧ an.qualifier ∈ st.plabels then
          match alookup (aspectToNodeLabelDict st.node_types) a with
          | none => none
          | some lbl =>
            if ("protein-" ++ lbl) ∈ st.filt then
              some (none, addpfxId env st "uniprot" item.1,
                addpfxId env st "go" an.go_id,
                "protein_" ++ underscoreSpaces an.qualifier ++ "_" ++
                  underscoreSpaces lbl,
                annotProps st an.reference an.evidence_code)
            else none
        else none
  else []

/-- The shared loop shape of the accepted-counting passes of
`GO.get_go_edges` (per-entry protein-GO, GO-GO, domain-GO): a counter is
incremented per appended edge, and
`if self.early_stopping and counter >= self.early_stopping: break` is
checked after each outer entry. -/
def goAcceptedPass {α : Type} (es : Option Nat) (f : α → List GOEdge)
    (cnt : Nat) : List α → List GOEdge
  | [] => []
  | it :: rest =>
    let e := f it
    e ++
    (match es with
     | some n =>
       if n ≠ 0 ∧ n ≤ cnt + e.length then []
       else goAcceptedPass es f (cnt + e.length) rest
     | none => goAcceptedPass es f (cnt + e.length) rest)

/-- The per-entry protein-GO pass of `GO.get_go_edges` (single-organism
input shape). -/
def proteinGoDictEdges (st : GOState) (env : String → String)
    (aspect : String → Option String) (swiss : List String)
    (items : List (String × List GOAnnot)) : List GOEdge :=
  goAcceptedPass st.earlyStop (dictItemEdges st env aspect swiss) 0 items

/-- The edges contributed by one `(term, ancestors)` entry of the GO-GO
pass of `GO.get_go_edges`: for each `(ancestor, relation)` with the
relation enabled, both aspects resolvable and the aspect-label pair in the
edge filterer, one edge from the term to the ancestor labeled
`<aspect(term)>_<relation>_<aspect(ancestor)>`. -/
def goGoTermEdges (st : GOState) (env : String → String)
    (aspect : String → Option String)
    (item : String × List (String × String)) : List GOEdge :=
  let src := addpfxId env st "go" item.1
  item.2.filterMap fun anc =>
    if anc.2 ∈ st.glabels then
      match aspect item.1, aspect anc.1 with
      | some ak, some aa =>
        match alookup (aspectToNodeLabelDict st.node_types) ak,
              alookup (aspectToNodeLabelDict st.node_types) aa with
        | some lk, some la =>
          if (lk ++ "-" ++ la) ∈ st.filt then
            some (none, src, addpfxId env st "go" anc.1,
              underscoreSpaces lk ++ "_" ++ anc.2 ++ "_" ++
                underscoreSpaces la, [])
          else none
        | _, _ => none
      | _, _ => none
    else none

/-- The GO-GO pass of `GO.get_go_edges` over
`self.go_ontology.ancestors.items()`. -/
def goToGoEdges (st : GOState) (env : String → String)
    (aspect : String → Option String)
    (items : List (String × List (String × String))) : List GOEdge :=
  goAcceptedPass st.earlyStop (goGoTermEdges st env aspect) 0 items

/-- `domain_function_label_dict` from the domain-GO pass of
`GO.get_go_edges`. -/
def domainFunctionLabelDict : List (String × String) :=
  [("P", "involved_in"), ("F", "enables"), ("C", "located_in")]

/-- The edges contributed by one `(interpro id, go terms)` entry of the
domain-GO pass of `GO.get_go_edges` (`if v:` skips falsy values). -/
def domainItemEdges (st : GOState) (env : String → String)
    (aspect : String → Option String) (item : String × List String) :
    List GOEdge :=
  match item.2 with
  | [] => []
  | ts =>
    ts.filterMap fun t =>
      match aspect t with
      | none => none
      | some a =>
        match alookup domainFunctionLabelDict a with
        | none => none
        | some f =>
          if f ∈ st.dlabels then
            match alookup (aspectToNodeLabelDict st.node_types) a with
            | none => none
            | some lbl =>
              if ("domain-" ++ lbl) ∈ st.filt then
                some (none, addpfxId env st "interpro" item.1,
                  addpfxId env st "go" t,
                  "protein_domain_" ++ f ++ "_" ++ underscoreSpaces lbl, [])
              else none
          else none

/-- The domain-GO pass of `GO.get_go_edges` over
`self.interpro2go.items()`. -/
def domainGoEdges (st : GOState) (env : String → String)
    (aspect : String → Option String) (items : List (String × List String)) :
    List GOEdge :=
  goAcceptedPass st.earlyStop (domainItemEdges st env aspect) 0 items

/-- The already-downloaded inputs of `GO.get_go_edges`: the annotation
DataFrame (all-organisms shape), the per-entry annotation mapping
(single-organism shape), the SwissProt id list, the ontology's term-aspect
map and term-ancestors map, and the `interpro2go` cross-references. -/
structure GOData where
  annotsDf : List AnnotRow
  annots : List (String × List GOAnnot)
  swissprots : List String
  aspect : String → Option String
  ancestors : List (String × List (String × String))
  interpro2go : List (String × List String)

/-- `GO.get_go_edges` from go_adapter.py: the three passes in source order,
each gated on its edge types being selected; the protein-GO pass uses the
DataFrame shape when `self.organism in ("*", None)` and the per-entry
shape otherwise. -/
def getGoEdges (env : String → String) (st : GOState) (d : GOData) :
    List GOEdge :=
  (if proteinToGoEdgeTypes.any (fun et => decide (et ∈ st.edge_types)) then
     if st.organism = none ∨ st.organism = some "*" then
       proteinGoDfEdges st env d.aspect d.annotsDf
     else
       proteinGoDictEdges st env d.aspect d.swissprots d.annots
   else []) ++
  (if goToGoEdgeTypes.any (fun et => decide (et ∈ st.edge_types)) then
     goToGoEdges st env d.aspect d.ancestors
   else []) ++
  (if domainToGoEdgeTypes.any (fun et => decide (et ∈ st.edge_types)) then
     domainGoEdges st env d.aspect d.interpro2go
   else [])

/-- Modelled from the spec: the "early-stop after N accepted entities"
debug limit "applied uniformly per pass by counting accepted (not
rejected) entities" — the pass emits candidates in order and stops as soon
as N accepted edges have been emitted.  Used as the spec-side contrast for
the early-stop claim. -/
def stopOnAcceptedRows (n : Nat) (f : AnnotRow → List GOEdge) (cnt : Nat) :
    List AnnotRow → List GOEdge
  | [] => []
  | r :: rest =>
    let e := f r
    e ++ (if n ≤ cnt + e.length then [] else stopOnAcceptedRows n f (cnt + e.length) rest)

/-- Modelled from the spec: `build(nodeKinds?, edgeKinds?, edgeLabels?) ->
Config | ConfigurationError`, the fail-fast dependency validation that
"fails with MissingDependencyError naming the offending edge kind and node
kind" before any data processing; the source has no such failing builder.
Used as the spec-side contrast for the configuration-error claim. -/
def buildTypeSelectionConfigSpec (nts0 : Option (List GONodeType))
    (ets0 : Option (List GOEdgeType)) (labels0 : Option (List GOEdgeLabel)) :
    Except String Unit :=
  let nts := nts0.getD allGONodeTypes
  let ets := ets0.getD allGOEdgeTypes
  let lbs := labels0.getD allGOEdgeLabels
  match ets.find? (fun et =>
      (checkNodeTypesOfEdges et).any (fun nt => decide (nt ∉ nts))) with
  | some et => .error ("missing required node kind for " ++ goeName et)
  | none =>
    match lbs.find? (fun lb => decide (lb.necessaryEdgeType ∉ ets)) with
    | some lb => .error ("missing required edge kind for " ++ lb.val)
    | none => .ok ()

instance {ε α : Type} [DecidableEq ε] [DecidableEq α] :
    DecidableEq (Except ε α)
  | .error a, .error b => decidable_of_iff (a = b) (by simp)
  | .error _, .ok _ => .isFalse (by simp)
  | .ok _, .error _ => .isFalse (by simp)
  | .ok a, .ok b => decidable_of_iff (a = b) (by simp)

instance : DecidableEq (PyStr × PyStr × Props) := inferInstance

instance : DecidableEq UNode := inferInstance

instance : DecidableEq (PyStr × PyStr × PyStr × Props) := inferInstance

instance : DecidableEq UEdge := inferInstance

instance : DecidableEq (String × String × String × List (String × String)) :=
  inferInstance

instance : DecidableEq GOEdge := inferInstance

/-- The token list carried by a field-splitter result (a scalar is a
singleton). -/
def tokensOf : SplitResult → List PyStr
  | .scalar s => [s]
  | .plist l => l
  | _ => []

theorem splitOnChar_ne_nil (c : Char) (s : PyStr) : splitOnChar c s ≠ [] := by
  induction s with
  | nil => simp [splitOnChar]
  | cons x xs ih =>
    unfold splitOnChar
    cases h : splitOnChar c xs with
    | nil => simp
    | cons t ts => dsimp only; split <;> simp

theorem joinWith_splitOnChar (c : Char) (s : PyStr) :
    joinWith c (splitOnChar c s) = s := by
  induction s with
  | nil => rfl
  | cons x xs ih =>
    unfold splitOnChar
    cases h : splitOnChar c xs with
    | nil => exact absurd h (splitOnChar_ne_nil c xs)
    | cons t ts =>
      rw [h] at ih
      by_cases hx : x = c
      · subst hx
        simp only [if_pos rfl]
        cases ts with
        | nil => simpa [joinWith] using ih
        | cons t2 ts2 => simpa [joinWith] using ih
      · simp only [if_neg hx]
        cases ts with
        | nil => simpa [joinWith] using ih
        | cons t2 ts2 =>
          simp only [joinWith] at ih ⊢
          rw [List.cons_append, ih]

theorem notMem_of_mem_splitOnChar {c : Char} {s t : PyStr}
    (h : t ∈ splitOnChar c s) : c ∉ t := by
  induction s generalizing t with
  | nil =>
    simp [splitOnChar] at h
    simp [h]
  | cons x xs ih =>
    unfold splitOnChar at h
    cases hs : splitOnChar c xs with
    | nil => exact absurd hs (splitOnChar_ne_nil c xs)
    | cons t1 ts1 =>
      rw [hs] at h
      dsimp only at h
      by_cases hx : x = c
      · rw [if_pos hx] at h
        rcases List.mem_cons.mp h with h1 | h1
        · subst h1; simp
        · exact ih (hs ▸ h1)
      · rw [if_neg hx] at h
        rcases List.mem_cons.mp h with h1 | h1
        · subst h1
          intro hc
          rcases List.mem_cons.mp hc with h2 | h2
          · exact hx h2.symm
          · exact ih (hs ▸ List.mem_cons_self t1 ts1) h2
        · exact ih (hs ▸ List.mem_cons.mpr (Or.inr h1))

theorem mem_of_mem_splitOnChar {c x : Char} {s t : PyStr}
    (h : t ∈ splitOnChar c s) (hx : x ∈ t) : x ∈ s := by
  induction s generalizing t with
  | nil =>
    simp [splitOnChar] at h
    subst h
    simp at hx
  | cons y ys ih =>
    unfold splitOnChar at h
    cases hs : splitOnChar c ys with
    | nil => exact absurd hs (splitOnChar_ne_nil c ys)
    | cons t1 ts1 =>
      rw [hs] at h
      dsimp only at h
      by_cases hy : y = c
      · rw [if_pos hy] at h
        rcases List.mem_cons.mp h with h1 | h1
        · subst h1; simp at hx
        · exact List.mem_cons.mpr (Or.inr (ih (hs ▸ h1) hx))
      · rw [if_neg hy] at h
        rcases List.mem_cons.mp h with h1 | h1
        · subst h1
          rcases List.mem_cons.mp hx with h2 | h2
          · exact List.mem_cons.mpr (Or.inl h2)
          · exact List.mem_cons.mpr
              (Or.inr (ih (hs ▸ List.mem_cons_self t1 ts1) h2))
        · exact List.mem_cons.mpr
            (Or.inr (ih (hs ▸ List.mem_cons.mpr (Or.inr h1)) hx))

theorem splitOnChar_of_notMem {c : Char} {s : PyStr} (h : c ∉ s) :
    splitOnChar c s = [s] := by
  induction s with
  | nil => rfl
  | cons x xs ih =>
    have hx : x ≠ c := fun hh => h (hh ▸ List.mem_cons_self x xs)
    have hxs : c ∉ xs := fun hh => h (List.mem_cons.mpr (Or.inr hh))
    unfold splitOnChar
    rw [ih hxs]
    simp [hx]

theorem splitOnChar_single_inv {c : Char} {s t : PyStr}
    (h : splitOnChar c s = [t]) : s = t := by
  have := joinWith_splitOnChar c s
  rw [h] at this
  simpa [joinWith] using this.symm

theorem replChar_eq_self {a b : Char} {s : PyStr} (h : a ∉ s) :
    replChar a b s = s := by
  induction s with
  | nil => rfl
  | cons x xs ih =>
    have hx : x ≠ a := fun hh => h (hh ▸ List.mem_cons_self x xs)
    have hxs : a ∉ xs := fun hh => h (List.mem_cons.mpr (Or.inr hh))
    simp [replChar] at ih ⊢
    exact ⟨fun hh => absurd hh hx, ih hxs⟩

theorem notMem_replChar {a b : Char} (hab : a ≠ b) (s : PyStr) :
    a ∉ replChar a b s := by
  induction s with
  | nil => simp [replChar]
  | cons x xs ih =>
    simp only [replChar, List.map_cons, List.mem_cons] at ih ⊢
    intro h
    rcases h with h | h
    · by_cases hx : x = a
      · rw [if_pos hx] at h; exact hab h
      · rw [if_neg hx] at h; exact hx h.symm
    · exact ih h

theorem mem_replChar {a b x : Char} {s : PyStr}
    (h : x ∈ replChar a b s) : x = b ∨ x ∈ s := by
  induction s with
  | nil => simp [replChar] at h
  | cons y ys ih =>
    simp only [replChar, List.map_cons, List.mem_cons] at h
    rcases h with h | h
    · by_cases hy : y = a
      · rw [if_pos hy] at h; exact Or.inl h
      · rw [if_neg hy] at h; exact Or.inr (List.mem_cons.mpr (Or.inl h))
    · rcases ih h with h1 | h1
      · exact Or.inl h1
      · exact Or.inr (List.mem_cons.mpr (Or.inr h1))

theorem mem_of_mem_dropWhileB {p : Char → Bool} {x : Char} {l : PyStr}
    (h : x ∈ l.dropWhile p) : x ∈ l := by
  induction l with
  | nil => simp at h
  | cons y ys ih =>
    by_cases hy : p y
    · rw [List.dropWhile_cons_of_pos hy] at h
      exact List.mem_cons.mpr (Or.inr (ih h))
    · rw [List.dropWhile_cons_of_neg (by simpa using hy)] at h
      exact h

theorem mem_of_pyStrip {x : Char} {s : PyStr} (h : x ∈ pyStrip s) : x ∈ s := by
  unfold pyStrip at h
  rw [List.mem_reverse] at h
  have h1 := mem_of_mem_dropWhileB h
  rw [List.mem_reverse] at h1
  exact mem_of_mem_dropWhileB h1

theorem mem_of_pyStripChar {c x : Char} {s : PyStr}
    (h : x ∈ pyStripChar c s) : x ∈ s := by
  unfold pyStripChar at h
  rw [List.mem_reverse] at h
  have h1 := mem_of_mem_dropWhileB h
  rw [List.mem_reverse] at h1
  exact mem_of_mem_dropWhileB h1

theorem dropWhileB_eq_self {c : Char} {l : PyStr} (h : c ∉ l) :
    l.dropWhile (· == c) = l := by
  cases l with
  | nil => rfl
  | cons x xs =>
    have hx : x ≠ c := fun hh => h (hh ▸ List.mem_cons_self x xs)
    rw [List.dropWhile_cons_of_neg (by simpa using hx)]

theorem pyStripChar_eq_self {c : Char} {s : PyStr} (h : c ∉ s) :
    pyStripChar c s = s := by
  unfold pyStripChar
  rw [dropWhileB_eq_self h, dropWhileB_eq_self (by simpa using h),
    List.reverse_reverse]

theorem collapseSingleton_eq_scalar {l : List PyStr} {s : PyStr} :
    collapseSingleton l = .scalar s ↔ l = [s] := by
  cases l with
  | nil => simp [collapseSingleton]
  | cons a t =>
    cases t with
    | nil => simp [collapseSingleton]
    | cons b t2 => simp [collapseSingleton]

theorem tokensOf_collapseSingleton (l : List PyStr) :
    tokensOf (collapseSingleton l) = l := by
  cases l with
  | nil => rfl
  | cons a t => cases t <;> rfl

theorem pipe_notMem_sanitizeField (v : PyStr) : '|' ∉ sanitizeField v := by
  intro h
  have h1 := mem_of_pyStrip h
  rcases mem_replChar h1 with h2 | h2
  · exact (by decide : ('|' : Char) ≠ '^') h2
  · exact notMem_replChar (by decide) v h2

theorem squote_notMem_sanitizeField (v : PyStr) : squote ∉ sanitizeField v := by
  intro h
  exact notMem_replChar (by decide) (replChar '|' ',' v) (mem_of_pyStrip h)

/-- A sanitized-clean scalar with no delimiter is a fixed point of
`fields_splitter` for every field key except `database(KEGG)`. -/
theorem fieldsSplitter_fixed_scalar (key s : PyStr)
    (hk : key ≠ "database(KEGG)".toList) (hne : s ≠ [])
    (hstrip : pyStrip s = s) (hp : '|' ∉ s) (hq : squote ∉ s)
    (hsemi : key ≠ "proteome".toList → key ≠ "genes".toList → ';' ∉ s)
    (hcomma : key = "proteome".toList → ',' ∉ s)
    (hspace : key = "genes".toList → ' ' ∉ s) :
    fieldsSplitter key s = .scalar s := by
  have hsan : sanitizeField s = s := by
    unfold sanitizeField
    rw [replChar_eq_self hp, replChar_eq_self hq, hstrip]
  unfold fieldsSplitter
  rw [if_neg hne]
  by_cases k1 : key = "proteome".toList
  · rw [if_pos k1, hsan, splitOnChar_of_notMem (hcomma k1)]
    rfl
  · rw [if_neg k1]
    by_cases k2 : key = "genes".toList
    · rw [if_pos k2, hsan, splitOnChar_of_notMem (hspace k2)]
      rfl
    · rw [if_neg k2, hsan, hstrip, pyStripChar_eq_self (hsemi k1 k2),
        splitOnChar_of_notMem (hsemi k1 k2), if_neg hk]
      by_cases k4 : key = "database(GeneID)".toList
      · rw [if_pos k4]
        rfl
      · rw [if_neg k4]
        rfl

/-- C8: the field splitter is NOT idempotent on its own scalar output for
`database(KEGG)`: re-splitting the scalar it returns raises `IndexError`,
because the first pass keeps only the part after the colon and the second
pass then finds no colon to split on. -/
theorem claim_C8_counterexample :
    fieldsSplitter "database(KEGG)".toList "hsa:1234".toList =
      .scalar "1234".toList ∧
    fieldsSplitter "database(KEGG)".toList "1234".toList = .exn := by
  decide

/-- C8 (amended): for every field key other than `database(KEGG)`, a
scalar output that is already trimmed and non-empty is a fixed point of
the splitter; for `database(KEGG)`, re-applying the splitter to any
trimmed, non-empty, delimiter-free, colon-free scalar (as its scalar
outputs are) raises `IndexError`. -/
theorem claim_C8_amended :
    (∀ key v s : PyStr, key ≠ "database(KEGG)".toList →
      fieldsSplitter key v = .scalar s → pyStrip s = s → s ≠ [] →
      fieldsSplitter key s = .scalar s) ∧
    (∀ s : PyStr, s ≠ [] → pyStrip s = s → '|' ∉ s → squote ∉ s →
      ';' ∉ s → ':' ∉ s →
      fieldsSplitter "database(KEGG)".toList s = .exn) := by
  constructor
  · intro key v s hk h hstrip hne
    have hv : v ≠ [] := by
      intro hv
      rw [hv] at h
      simp [fieldsSplitter] at h
    by_cases k1 : key = "proteome".toList
    · subst k1
      simp only [fieldsSplitter, if_neg hv, if_pos rfl] at h
      have hparts := collapseSingleton_eq_scalar.mp h
      have hmem : s ∈ splitOnChar ',' (sanitizeField v) := by
        rw [hparts]
        exact List.mem_singleton.mpr rfl
      exact fieldsSplitter_fixed_scalar _ s (by decide) hne hstrip
        (fun hh => pipe_notMem_sanitizeField v (mem_of_mem_splitOnChar hmem hh))
        (fun hh => squote_notMem_sanitizeField v (mem_of_mem_splitOnChar hmem hh))
        (fun hnp _ => absurd rfl hnp)
        (fun _ => notMem_of_mem_splitOnChar hmem)
        (fun hg => absurd hg (by decide))
    · by_cases k2 : key = "genes".toList
      · subst k2
        simp only [fieldsSplitter, if_neg hv, if_neg (by decide :
          ¬ "genes".toList = "proteome".toList), if_pos rfl] at h
        have hparts := collapseSingleton_eq_scalar.mp h
        have hmem : s ∈ splitOnChar ' ' (sanitizeField v) := by
          rw [hparts]
          exact List.mem_singleton.mpr rfl
        exact fieldsSplitter_fixed_scalar _ s (by decide) hne hstrip
          (fun hh => pipe_notMem_sanitizeField v
            (mem_of_mem_splitOnChar hmem hh))
          (fun hh => squote_notMem_sanitizeField v
            (mem_of_mem_splitOnChar hmem hh))
          (fun _ hng => absurd rfl hng)
          (fun hp => absurd hp (by decide))
          (fun _ => notMem_of_mem_splitOnChar hmem)
      · have hchain : ∀ x : Char,
            x ∈ pyStripChar ';' (pyStrip (sanitizeField v)) →
            x ∈ sanitizeField v := fun x hx =>
          mem_of_pyStrip (mem_of_pyStripChar hx)
        by_cases k4 : key = "database(GeneID)".toList
        · subst k4
          simp only [fieldsSplitter, if_neg hv, if_neg (by decide :
              ¬ "database(GeneID)".toList = "proteome".toList),
            if_neg (by decide : ¬ "database(GeneID)".toList = "genes".toList),
            if_neg (by decide :
              ¬ "database(GeneID)".toList = "database(KEGG)".toList),
            if_true, SplitResult.scalar.injEq] at h
          have hmem : s ∈ splitOnChar ';'
              (pyStripChar ';' (pyStrip (sanitizeField v))) := by
            cases hp : splitOnChar ';'
                (pyStripChar ';' (pyStrip (sanitizeField v))) with
            | nil => exact absurd hp (splitOnChar_ne_nil _ _)
            | cons a t =>
              rw [hp] at h
              simp at h
              rw [← h]
              exact List.mem_cons_self a t
          exact fieldsSplitter_fixed_scalar _ s (by decide) hne hstrip
            (fun hh => pipe_notMem_sanitizeField v
              (hchain _ (mem_of_mem_splitOnChar hmem hh)))
            (fun hh => squote_notMem_sanitizeField v
              (hchain _ (mem_of_mem_splitOnChar hmem hh)))
            (fun _ _ => notMem_of_mem_splitOnChar hmem)
            (fun hp => absurd hp (by decide))
            (fun hg => absurd hg (by decide))
        · simp only [fieldsSplitter, if_neg hv, if_neg k1, if_neg k2,
            if_neg hk, if_neg k4] at h
          have hparts := collapseSingleton_eq_scalar.mp h
          have hmem : s ∈ splitOnChar ';'
              (pyStripChar ';' (pyStrip (sanitizeField v))) := by
            rw [hparts]
            exact List.mem_singleton.mpr rfl
          exact fieldsSplitter_fixed_scalar _ s hk hne hstrip
            (fun hh => pipe_notMem_sanitizeField v
              (hchain _ (mem_of_mem_splitOnChar hmem hh)))
            (fun hh => squote_notMem_sanitizeField v
              (hchain _ (mem_of_mem_splitOnChar hmem hh)))
            (fun _ _ => notMem_of_mem_splitOnChar hmem)
            (fun hp => absurd hp k1)
            (fun hg => absurd hg k2)
  · intro s hne hstrip hp hq hsemi hcolon
    have hsan : sanitizeField s = s := by
      unfold sanitizeField
      rw [replChar_eq_self hp, replChar_eq_self hq, hstrip]
    unfold fieldsSplitter
    rw [if_neg hne, if_neg (by decide :
        ¬ "database(KEGG)".toList = "proteome".toList),
      if_neg (by decide : ¬ "database(KEGG)".toList = "genes".toList),
      hsan, hstrip, pyStripChar_eq_self hsemi,
      splitOnChar_of_notMem hsemi, if_pos rfl]
    simp only [List.mapM_cons, List.mapM_nil, splitOnChar_of_notMem hcolon]
    rfl

/-- C8 witness: a plain `;`-field scalar is re-split to itself, and the
KEGG scalar `"1234"` (from `"hsa:1234"`) raises on re-splitting. -/
theorem claim_C8_witness :
    fieldsSplitter "ec".toList "abc".toList = .scalar "abc".toList ∧
    fieldsSplitter "database(KEGG)".toList "1234".toList = .exn :=
  ⟨claim_C8_amended.1 "ec".toList "abc".toList "abc".toList (by decide)
      (by decide) (by decide) (by decide),
   claim_C8_amended.2 "1234".toList (by decide) (by decide) (by decide)
      (by decide) (by decide) (by decide)⟩

/-- C7: on the primary-`;` field `ec`, the splitter does NOT trim tokens
and does NOT discard interior empty tokens: `"a; b;;c"` yields the token
`" b"` with leading whitespace and the empty token `""`. -/
theorem claim_C7_counterexample :
    fieldsSplitter "ec".toList "a; b;;c".toList =
      .plist ["a".toList, " b".toList, [], "c".toList] ∧
    ¬ (∀ t ∈ tokensOf (fieldsSplitter "ec".toList "a; b;;c".toList),
        pyStrip t = t ∧ t ≠ []) := by
  decide

/-- C7 (amended): for every primary-`;` field, the splitter sanitizes the
raw value, strips outer whitespace and outer semicolons, and splits on
`;` keeping every token verbatim: no token contains `;`, and re-joining
the tokens with `;` reconstructs the stripped value exactly — so tokens
are neither trimmed nor dropped. -/
theorem claim_C7_amended (key v : PyStr)
    (h1 : key ≠ "proteome".toList) (h2 : key ≠ "genes".toList)
    (h3 : key ≠ "database(KEGG)".toList)
    (h4 : key ≠ "database(GeneID)".toList) (h5 : v ≠ []) :
    (∀ t ∈ tokensOf (fieldsSplitter key v), ';' ∉ t) ∧
      joinWith ';' (tokensOf (fieldsSplitter key v)) =
        pyStripChar ';' (pyStrip (sanitizeField v)) := by
  have hout : fieldsSplitter key v =
      collapseSingleton (splitOnChar ';'
        (pyStripChar ';' (pyStrip (sanitizeField v)))) := by
    unfold fieldsSplitter
    rw [if_neg h5, if_neg h1, if_neg h2, if_neg h3, if_neg h4]
  rw [hout, tokensOf_collapseSingleton]
  exact ⟨fun t ht => notMem_of_mem_splitOnChar ht,
    joinWith_splitOnChar ';' (pyStripChar ';' (pyStrip (sanitizeField v)))⟩

/-- C7 witness: the amended behavior at `ec` / `"a; b;;c"`. -/
theorem claim_C7_witness :
    (∀ t ∈ tokensOf (fieldsSplitter "ec".toList "a; b;;c".toList), ';' ∉ t) ∧
      joinWith ';' (tokensOf (fieldsSplitter "ec".toList "a; b;;c".toList)) =
        pyStripChar ';' (pyStrip (sanitizeField "a; b;;c".toList)) :=
  claim_C7_amended "ec".toList "a; b;;c".toList (by decide) (by decide)
    (by decide) (by decide) (by decide)

/-- C2: on a `[Cleaved`-marked value whose clipped prefix holds multiple
names, the adapter's `split_protein_names_field` returns the single
unsplit prefix string (its split branches test `protein_names[0]`, the
first CHARACTER of the prefix, so they never fire), while the parallel
implementation in protein.py — which wraps the prefix in a list first —
returns the split name list the claim (and the spec) describe. -/
theorem claim_C2_bug_eval :
    splitProteinNamesField
        "Thioredoxin 1 (EC 1.8.1.8) (Trx-1) [Cleaved into: X]".toList =
      .scalar "Thioredoxin 1 (EC 1.8.1.8) (Trx-1)".toList ∧
    cleanProteinNamesPy
        "Thioredoxin 1 (EC 1.8.1.8) (Trx-1) [Cleaved into: X]".toList =
      ["Thioredoxin 1".toList, "Trx-1".toList] := by
  decide

theorem getEdgesRecord_no_types (env : UEnv) (edgeTypes : List PyStr)
    (data : PyStr → PyStr → Option PyStr) (p : PyStr)
    (hg : "GENE_TO_PROTEIN".toList ∉ edgeTypes)
    (ho : "PROTEIN_TO_ORGANISM".toList ∉ edgeTypes) :
    getEdgesRecord env edgeTypes data p = .ok [] := by
  unfold getEdgesRecord
  simp only [if_neg hg, if_neg ho]
  rfl

/-- C9: when nothing assembles an edge — neither edge type selected, or no
input identifiers — `Uniprot.get_edges` returns `None`, and a successful
run never returns an empty list. -/
theorem claim_C9_none_on_empty :
    (∀ (env : UEnv) (edgeTypes : List PyStr)
      (data : PyStr → PyStr → Option PyStr) (ids : List PyStr),
      "GENE_TO_PROTEIN".toList ∉ edgeTypes →
      "PROTEIN_TO_ORGANISM".toList ∉ edgeTypes →
      getEdges env edgeTypes data ids = .ok none) ∧
    (∀ (env : UEnv) (edgeTypes : List PyStr)
      (data : PyStr → PyStr → Option PyStr),
      getEdges env edgeTypes data [] = .ok none) ∧
    (∀ (env : UEnv) (edgeTypes : List PyStr)
      (data : PyStr → PyStr → Option PyStr) (ids : List PyStr)
      (r : Option (List UEdge)),
      getEdges env edgeTypes data ids = .ok r → r ≠ some []) := by
  refine ⟨?_, ?_, ?_⟩
  · intro env edgeTypes data ids hg ho
    have hfold : ∀ acc : List UEdge,
        ids.foldlM (fun acc p => do
          let es ← getEdgesRecord env edgeTypes data p
          return acc ++ es) acc = .ok acc := by
      induction ids with
      | nil => intro acc; rfl
      | cons p ps ih =>
        intro acc
        rw [List.foldlM_cons, getEdgesRecord_no_types env edgeTypes data p hg ho]
        simpa using ih acc
    unfold getEdges
    rw [hfold []]
    rfl
  · intro env edgeTypes data
    rfl
  · intro env edgeTypes data ids r h
    unfold getEdges at h
    cases hfold : ids.foldlM (fun acc p => do
        let es ← getEdgesRecord env edgeTypes data p
        return acc ++ es) ([] : List UEdge) with
    | error e =>
      rw [hfold] at h
      simp [Bind.bind, Except.bind] at h
    | ok el =>
      rw [hfold] at h
      cases el with
      | nil =>
        simp [Bind.bind, Except.bind, pure, Except.pure] at h
        simp [← h]
      | cons x xs =>
        simp [Bind.bind, Except.bind, pure, Except.pure] at h
        simp [← h]

/-- C9 witness: an empty edge-type selection over one identifier returns
`None`. -/
theorem claim_C9_witness :
    getEdges ⟨fun s => s, fun _ => []⟩ [] (fun _ _ => none) ["P1".toList] =
      .ok none :=
  claim_C9_none_on_empty.1 ⟨fun s => s, fun _ => []⟩ [] (fun _ _ => none)
    ["P1".toList] (by decide) (by decide)

/-- A pass-through normalizer environment (identity `normalize_curie`, an
id-mapping collaborator with no matches), used for concrete evaluations. -/
def idEnv : UEnv := ⟨fun s => s, fun _ => []⟩

/-- The three constant provenance properties as a bag of their own. -/
def constProvenanceProps : Props :=
  [("source".toList, .vs "uniprot".toList),
   ("licence".toList, .vs "CC BY 4.0".toList),
   ("version".toList, .vs "2022_04".toList)]

/-- Concrete dataset: identifier `P1` has a malformed `virus hosts` value
(no `[`/`]` bracket); everything else is absent. -/
def c3Data : PyStr → PyStr → Option PyStr := fun f pr =>
  if pr = "P1".toList ∧ f = "virus hosts".toList then
    some "Homo sapiens TaxID 9606".toList
  else none

/-- Concrete dataset: identifier `P1` has a non-numeric `length` value;
everything else is absent. -/
def c3DataNum : PyStr → PyStr → Option PyStr := fun f pr =>
  if pr = "P1".toList ∧ f = "length".toList then some "12x".toList
  else none

/-- C3: a malformed bracket sub-field (and likewise a non-numeric numeric
field) aborts the WHOLE `get_nodes` run with an uncaught exception — the
later, well-formed record `P2` is never processed and contributes nothing,
where the claimed skip-and-continue policy (spec-modelled
`getNodesSkipBad`) would still emit `P2`'s node. -/
theorem claim_C3_counterexample :
    getNodes idEnv ["virus hosts".toList] c3Data
        ["P1".toList, "P2".toList] = .error .valueError ∧
    getNodesSkipBad idEnv ["virus hosts".toList] c3Data
        ["P1".toList, "P2".toList] =
      [("uniprot:P2".toList, "protein".toList, constProvenanceProps)] ∧
    getNodes idEnv ["length".toList] c3DataNum
        ["P1".toList, "P2".toList] = .error .valueError := by
  decide

/-- C3 (amended): there is no per-record recovery in `Uniprot.get_nodes` —
as soon as one record raises a format error, the whole run returns that
error; records before the bad one do not save the run, and records after
it are never reached (no node list is produced at all). -/
theorem claim_C3_amended (env : UEnv) (attrs : List PyStr)
    (data : PyStr → PyStr → Option PyStr) (ids1 : List PyStr) (p : PyStr)
    (ids2 : List PyStr) (e : PyErr)
    (hok : ∀ q ∈ ids1, ∃ r,
      processRecord env attrs (fun arg => data arg q) q = .ok r)
    (hbad : processRecord env attrs (fun arg => data arg p) p = .error e) :
    getNodes env attrs data (ids1 ++ p :: ids2) = .error e := by
  induction ids1 with
  | nil =>
    simp only [List.nil_append]
    unfold getNodes
    rw [hbad]
    rfl
  | cons q qs ih =>
    obtain ⟨r, hr⟩ := hok q (List.mem_cons_self q qs)
    have ihh := ih (fun q2 hq2 => hok q2 (List.mem_cons.mpr (Or.inr hq2)))
    simp only [List.cons_append]
    unfold getNodes
    rw [hr]
    show (do
      let rest ← getNodes env attrs data (qs ++ p :: ids2)
      return r ++ rest) = .error e
    rw [ihh]
    rfl

/-- C3 witness: a good record before the malformed one still ends in the
whole run aborting with the error. -/
theorem claim_C3_witness :
    getNodes idEnv ["virus hosts".toList] c3Data
      ["P2".toList, "P1".toList] = .error .valueError :=
  claim_C3_amended idEnv ["virus hosts".toList] c3Data ["P2".toList]
    "P1".toList [] .valueError
    (by
      intro q hq
      simp only [List.mem_singleton] at hq
      subst hq
      exact ⟨[("uniprot:P2".toList, "protein".toList, constProvenanceProps)],
        by decide⟩)
    (by decide)

/-- Concrete dataset: every identifier has `genes = "g1"` and
`database(GeneID) = "123"`. -/
def c5Data : PyStr → PyStr → Option PyStr := fun f _ =>
  if f = "genes".toList then some "g1".toList
  else if f = "database(GeneID)".toList then some "123".toList
  else none

/-- The attribute selection for the duplication scenario. -/
def c5Attrs : List PyStr :=
  [UniprotNodeField.PROTEIN_GENE_NAMES,
   UniprotNodeField.PROTEIN_ENTREZ_GENE_IDS].map UniprotNodeField.val

/-- The gene node derived from the duplication scenario's record. -/
def c5GeneNode : UNode :=
  ("ncbigene:123".toList, "gene".toList,
   ("genes".toList, PVal.vs "g1".toList) :: constProvenanceProps)

/-- C5: `Uniprot.get_nodes` performs NO deduplication — running it over the
same record twice yields the identical gene node TWICE, not once. -/
theorem claim_C5_counterexample :
    getNodes idEnv c5Attrs c5Data ["P1".toList, "P1".toList] =
      .ok [("uniprot:P1".toList, "protein".toList, constProvenanceProps),
           c5GeneNode,
           ("uniprot:P1".toList, "protein".toList, constProvenanceProps),
           c5GeneNode] ∧
    (match getNodes idEnv c5Attrs c5Data ["P1".toList, "P1".toList] with
     | .ok l => l.count c5GeneNode
     | .error _ => 0) = 2 := by
  decide

theorem dedupProtein_genes (acc : PDedupAcc) (r : PRow) :
    (dedupProtein acc r).genes = acc.genes := by
  unfold dedupProtein
  split <;> rfl

theorem dedupProtein_entrezSeen (acc : PDedupAcc) (r : PRow) :
    (dedupProtein acc r).entrezSeen = acc.entrezSeen := by
  unfold dedupProtein
  split <;> rfl

theorem dedupG2P_genes (acc : PDedupAcc) (r : PRow) :
    (dedupG2P acc r).genes = acc.genes := by
  unfold dedupG2P
  split <;> rfl

theorem dedupG2P_entrezSeen (acc : PDedupAcc) (r : PRow) :
    (dedupG2P acc r).entrezSeen = acc.entrezSeen := by
  unfold dedupG2P
  split <;> rfl

theorem dedupOrganism_genes (acc : PDedupAcc) (r : PRow) :
    (dedupOrganism acc r).genes = acc.genes := by
  unfold dedupOrganism
  split <;> rfl

theorem dedupOrganism_entrezSeen (acc : PDedupAcc) (r : PRow) :
    (dedupOrganism acc r).entrezSeen = acc.entrezSeen := by
  unfold dedupOrganism
  split <;> rfl

theorem dedupGene_genes (acc : PDedupAcc) (r : PRow) :
    (dedupGene acc r).genes =
      if r.genes ≠ "nan".toList ∧ r.entrezId ≠ "nan".toList ∧
          r.geneBag ∉ acc.genes ∧ r.entrezId ∉ acc.entrezSeen then
        acc.genes ++ [r.geneBag]
      else acc.genes := by
  unfold dedupGene
  split <;> rfl

theorem dedupGene_entrezSeen (acc : PDedupAcc) (r : PRow) :
    (dedupGene acc r).entrezSeen =
      if r.genes ≠ "nan".toList ∧ r.entrezId ≠ "nan".toList ∧
          r.geneBag ∉ acc.genes ∧ r.entrezId ∉ acc.entrezSeen then
        acc.entrezSeen ++ [r.entrezId]
      else acc.entrezSeen := by
  unfold dedupGene
  split <;> rfl

theorem dedupStep_genes (acc : PDedupAcc) (r : PRow) :
    (generateNodesDedupStep acc r).genes =
      if r.genes ≠ "nan".toList ∧ r.entrezId ≠ "nan".toList ∧
          r.geneBag ∉ acc.genes ∧ r.entrezId ∉ acc.entrezSeen then
        acc.genes ++ [r.geneBag]
      else acc.genes := by
  unfold generateNodesDedupStep
  rw [dedupOrganism_genes, dedupG2P_genes, dedupGene_genes,
    dedupProtein_genes, dedupProtein_entrezSeen]
  rfl

theorem dedupStep_entrezSeen (acc : PDedupAcc) (r : PRow) :
    (generateNodesDedupStep acc r).entrezSeen =
      if r.genes ≠ "nan".toList ∧ r.entrezId ≠ "nan".toList ∧
          r.geneBag ∉ acc.genes ∧ r.entrezId ∉ acc.entrezSeen then
        acc.entrezSeen ++ [r.entrezId]
      else acc.entrezSeen := by
  unfold generateNodesDedupStep
  rw [dedupOrganism_entrezSeen, dedupG2P_entrezSeen, dedupGene_entrezSeen,
    dedupProtein_genes, dedupProtein_entrezSeen]
  rfl

/-- C5 (amended): the deduplication the claim describes lives in
protein.py's `generate_nodes_and_edges`, not in the BioCypher adapter:
there, two records with field-for-field identical gene property bags yield
exactly one gene node, and two records with the same entrez id but
different bags keep only the first-seen bag (the later variant is
dropped). -/
theorem claim_C5_amended :
    (∀ r1 r2 : PRow, r1.geneBag = r2.geneBag →
      r1.genes ≠ "nan".toList → r2.genes ≠ "nan".toList →
      r1.entrezId ≠ "nan".toList →
      (generateNodesDedup none [r1, r2]).genes = [r1.geneBag]) ∧
    (∀ r1 r2 : PRow, r1.entrezId = r2.entrezId →
      r1.genes ≠ "nan".toList → r2.genes ≠ "nan".toList →
      r1.entrezId ≠ "nan".toList →
      (generateNodesDedup none [r1, r2]).genes = [r1.geneBag]) := by
  have hrun : ∀ r1 r2 : PRow, generateNodesDedup none [r1, r2] =
      generateNodesDedupStep
        (generateNodesDedupStep ⟨[], [], [], [], [], []⟩ r1) r2 :=
    fun r1 r2 => rfl
  constructor
  · intro r1 r2 hbag h1 h2 h3
    have hA : (generateNodesDedupStep ⟨[], [], [], [], [], []⟩ r1).genes =
        [r1.geneBag] := by
      rw [dedupStep_genes,
        if_pos ⟨h1, h3, List.not_mem_nil _, List.not_mem_nil _⟩]
      rfl
    rw [hrun, dedupStep_genes, if_neg, hA]
    intro hc
    exact hc.2.2.1 (by
      rw [hA, ← hbag]
      exact List.mem_singleton.mpr rfl)
  · intro r1 r2 hent h1 h2 h3
    have hE : (generateNodesDedupStep
        ⟨[], [], [], [], [], []⟩ r1).entrezSeen = [r1.entrezId] := by
      rw [dedupStep_entrezSeen,
        if_pos ⟨h1, h3, List.not_mem_nil _, List.not_mem_nil _⟩]
      rfl
    have hA : (generateNodesDedupStep ⟨[], [], [], [], [], []⟩ r1).genes =
        [r1.geneBag] := by
      rw [dedupStep_genes,
        if_pos ⟨h1, h3, List.not_mem_nil _, List.not_mem_nil _⟩]
      rfl
    rw [hrun, dedupStep_genes, if_neg, hA]
    intro hc
    exact hc.2.2.2 (by
      rw [hE, ← hent]
      exact List.mem_singleton.mpr rfl)

/-- C5 witness: two concrete rows with identical gene bags collapse to one
gene node; two rows with the same entrez id and different bags keep the
first. -/
theorem claim_C5_witness :
    (generateNodesDedup none
      [⟨"A1".toList, "g1".toList, "11".toList, [],
        [("genes".toList, .vs "g1".toList)], [], "9606".toList⟩,
       ⟨"A2".toList, "g1".toList, "11".toList, [],
        [("genes".toList, .vs "g1".toList)], [], "9606".toList⟩]).genes =
      [[("genes".toList, .vs "g1".toList)]] ∧
    (generateNodesDedup none
      [⟨"A1".toList, "g1".toList, "11".toList, [],
        [("genes".toList, .vs "g1".toList)], [], "9606".toList⟩,
       ⟨"A2".toList, "g2".toList, "11".toList, [],
        [("genes".toList, .vs "g2".toList)], [], "9606".toList⟩]).genes =
      [[("genes".toList, .vs "g1".toList)]] :=
  ⟨claim_C5_amended.1 _ _ (by decide) (by decide) (by decide) (by decide),
   claim_C5_amended.2 _ _ (by decide) (by decide) (by decide) (by decide)⟩

theorem mem_dictSet_self {α : Type} (m : PyDict α) (k : PyStr) (v : α) :
    (k, v) ∈ dictSet m k v := by
  induction m with
  | nil => simp [dictSet]
  | cons kv m ih =>
    unfold dictSet
    by_cases hk : kv.1 = k
    · rw [if_pos hk]
      exact List.mem_cons_self _ _
    · rw [if_neg hk]
      exact List.mem_cons.mpr (Or.inr ih)

theorem mem_dictSet_of_ne {α : Type} {m : PyDict α} {k : PyStr} {v : α}
    (k2 : PyStr) (v2 : α) (h : (k, v) ∈ m) (hne : k2 ≠ k) :
    (k, v) ∈ dictSet m k2 v2 := by
  induction m with
  | nil => simp at h
  | cons kv m ih =>
    unfold dictSet
    by_cases hk : kv.1 = k2
    · rw [if_pos hk]
      rcases List.mem_cons.mp h with h1 | h1
      · exact absurd (h1 ▸ hk) (fun hh => hne hh.symm)
      · exact List.mem_cons.mpr (Or.inr h1)
    · rw [if_neg hk]
      rcases List.mem_cons.mp h with h1 | h1
      · exact h1 ▸ List.mem_cons_self _ _
      · exact List.mem_cons.mpr (Or.inr (ih h1))

/-- Every bag that went through the constant-property assignment carries
the three provenance pairs. -/
theorem constProps_mem (props : Props) :
    ("source".toList, PVal.vs "uniprot".toList) ∈ uniprotConstProps props ∧
    ("licence".toList, PVal.vs "CC BY 4.0".toList) ∈ uniprotConstProps props ∧
    ("version".toList, PVal.vs "2022_04".toList) ∈ uniprotConstProps props := by
  unfold uniprotConstProps
  refine ⟨?_, ?_, ?_⟩
  · exact mem_dictSet_of_ne _ _
      (mem_dictSet_of_ne _ _ (mem_dictSet_self _ _ _) (by decide))
      (by decide)
  · exact mem_dictSet_of_ne _ _ (mem_dictSet_self _ _ _) (by decide)
  · exact mem_dictSet_self _ _ _

theorem processAttr_noneLookup (env : UEnv) (look : PyStr → Option PyStr)
    (hlook : ∀ a, look a = none) (f : UniprotNodeField)
    (hf : f ≠ .PROTEIN_NAMES) :
    processAttr env look ([] : Props) f.val = .ok ([] : Props) := by
  cases f <;> simp [processAttr, UniprotNodeField.val, hlook,
    splitVirusHostsField, dictHasKey, dictGet, uniprotSplitFields] at hf ⊢

theorem attrsLoop_noneLookup (env : UEnv) (look : PyStr → Option PyStr)
    (hlook : ∀ a, look a = none) (nf : List UniprotNodeField)
    (hnf : UniprotNodeField.PROTEIN_NAMES ∉ nf) :
    (nf.map UniprotNodeField.val).foldlM (processAttr env look)
      ([] : Props) = .ok ([] : Props) := by
  induction nf with
  | nil => rfl
  | cons f fs ih =>
    have hf : f ≠ .PROTEIN_NAMES :=
      fun hh => hnf (hh ▸ List.mem_cons_self f fs)
    rw [List.map_cons, List.foldlM_cons,
      processAttr_noneLookup env look hlook f hf]
    exact ih (fun hh => hnf (List.mem_cons.mpr (Or.inr hh)))

theorem processRecord_allAbsent (env : UEnv) (look : PyStr → Option PyStr)
    (hlook : ∀ a, look a = none) (nf : List UniprotNodeField)
    (hnf : UniprotNodeField.PROTEIN_NAMES ∉ nf) (p : PyStr) :
    processRecord env (nf.map UniprotNodeField.val) look p =
      .ok [(env.norm ("uniprot:".toList ++ p), "protein".toList,
            constProvenanceProps)] := by
  unfold processRecord
  rw [attrsLoop_noneLookup env look hlook nf hnf]
  rfl

/-- Every node emitted by one record of `Uniprot.get_nodes` carries the
three constant provenance properties. -/
theorem processRecord_nodes_const (env : UEnv) (attrs : List PyStr)
    (look : PyStr → Option PyStr) (p : PyStr) (r : List UNode)
    (h : processRecord env attrs look p = .ok r) :
    ∀ nd ∈ r,
      ("source".toList, PVal.vs "uniprot".toList) ∈ nd.2.2 ∧
      ("licence".toList, PVal.vs "CC BY 4.0".toList) ∈ nd.2.2 ∧
      ("version".toList, PVal.vs "2022_04".toList) ∈ nd.2.2 := by
  unfold processRecord at h
  cases h1 : attrs.foldlM (processAttr env look) ([] : Props) with
  | error e =>
    rw [h1] at h
    simp [Bind.bind, Except.bind] at h
  | ok props =>
    rw [h1] at h
    cases h2 : props.foldlM (processBagKey env props)
        (⟨[], [], [], [], []⟩ : BagsAcc) with
    | error e =>
      simp only [Bind.bind, Except.bind] at h
      rw [h2] at h
      simp at h
    | ok acc =>
      simp only [Bind.bind, Except.bind] at h
      rw [h2] at h
      simp only [pure, Except.pure, Except.ok.injEq] at h
      subst h
      intro nd hnd
      by_cases hg : acc.geneId ≠ []
      · by_cases ho : acc.organismId ≠ []
        · simp only [if_pos hg, if_pos ho] at hnd
          simp only [List.append_assoc, List.mem_append,
            List.mem_singleton] at hnd
          rcases hnd with h3 | h3 | h3 <;> subst h3 <;>
            exact constProps_mem _
        · simp only [if_pos hg, if_neg ho] at hnd
          simp only [List.mem_append, List.mem_singleton] at hnd
          rcases hnd with h3 | h3 <;> subst h3 <;> exact constProps_mem _
      · by_cases ho : acc.organismId ≠ []
        · simp only [if_neg hg, if_pos ho] at hnd
          simp only [List.mem_append, List.mem_singleton] at hnd
          rcases hnd with h3 | h3 <;> subst h3 <;> exact constProps_mem _
        · simp only [if_neg hg, if_neg ho, List.mem_singleton] at hnd
          subst hnd
          exact constProps_mem _

/-- C10: with the DEFAULT attribute selection (which includes
`protein names`), `Uniprot.get_nodes` does not emit a node for an
identifier with every field absent — it crashes: the `protein names`
branch calls the parser on the raw value unconditionally, and
`None.replace(...)` raises `AttributeError`. -/
theorem claim_C10_counterexample :
    getNodes idEnv (allUniprotNodeFields.map UniprotNodeField.val)
      (fun _ _ => none) ["P1".toList] = .error .attributeError := by
  decide

/-- C10 (amended): provided `protein names` is NOT among the selected
attribute fields, `get_nodes` over identifiers with every field absent
succeeds and emits exactly one protein node per identifier whose
properties are exactly the constant `source` / `licence` / `version`
triple; and in any successful run, every emitted node carries those three
constant properties. -/
theorem claim_C10_amended :
    (∀ (env : UEnv) (nf : List UniprotNodeField) (ids : List PyStr),
      UniprotNodeField.PROTEIN_NAMES ∉ nf →
      getNodes env (nf.map UniprotNodeField.val) (fun _ _ => none) ids =
        .ok (ids.map (fun p => (env.norm ("uniprot:".toList ++ p),
          "protein".toList, constProvenanceProps)))) ∧
    (∀ (env : UEnv) (attrs : List PyStr)
      (data : PyStr → PyStr → Option PyStr) (ids : List PyStr)
      (nodes : List UNode),
      getNodes env attrs data ids = .ok nodes →
      ∀ nd ∈ nodes,
        ("source".toList, PVal.vs "uniprot".toList) ∈ nd.2.2 ∧
        ("licence".toList, PVal.vs "CC BY 4.0".toList) ∈ nd.2.2 ∧
        ("version".toList, PVal.vs "2022_04".toList) ∈ nd.2.2) := by
  constructor
  · intro env nf ids hnf
    induction ids with
    | nil => rfl
    | cons p ps ih =>
      show (do
        let r ← processRecord env (nf.map UniprotNodeField.val)
          (fun arg => (fun _ _ => (none : Option PyStr)) arg p) p
        let rest ← getNodes env (nf.map UniprotNodeField.val)
          (fun _ _ => none) ps
        return r ++ rest) = _
      rw [processRecord_allAbsent env _ (fun a => rfl) nf hnf, ih]
      rfl
  · intro env attrs data ids
    induction ids with
    | nil =>
      intro nodes h nd hnd
      simp only [getNodes] at h
      simp only [Except.ok.injEq] at h
      subst h
      simp at hnd
    | cons p ps ih =>
      intro nodes h nd hnd
      unfold getNodes at h
      cases hr : processRecord env attrs (fun arg => data arg p) p with
      | error e =>
        rw [hr] at h
        simp [Bind.bind, Except.bind] at h
      | ok r =>
        rw [hr] at h
        cases hrest : getNodes env attrs data ps with
        | error e =>
          simp only [Bind.bind, Except.bind] at h
          rw [hrest] at h
          simp at h
        | ok rest =>
          simp only [Bind.bind, Except.bind] at h
          rw [hrest] at h
          simp only [pure, Except.pure, Except.ok.injEq] at h
          subst h
          rcases List.mem_append.mp hnd with h3 | h3
          · exact processRecord_nodes_const env attrs _ p r hr nd h3
          · exact ih rest hrest nd h3

/-- C10 witness: one no-data identifier with only `length` selected gives
exactly the protein node carrying the three constants, and that run
satisfies the constants invariant. -/
theorem claim_C10_witness :
    getNodes idEnv ([UniprotNodeField.PROTEIN_LENGTH].map
        UniprotNodeField.val) (fun _ _ => none) ["P1".toList] =
      .ok [("uniprot:P1".toList, "protein".toList, constProvenanceProps)] ∧
    (∀ nd ∈ [(("uniprot:P1".toList : PyStr), ("protein".toList : PyStr),
        constProvenanceProps)],
      ("source".toList, PVal.vs "uniprot".toList) ∈ nd.2.2 ∧
      ("licence".toList, PVal.vs "CC BY 4.0".toList) ∈ nd.2.2 ∧
      ("version".toList, PVal.vs "2022_04".toList) ∈ nd.2.2) :=
  ⟨claim_C10_amended.1 idEnv [UniprotNodeField.PROTEIN_LENGTH]
      ["P1".toList] (by decide),
   claim_C10_amended.2 idEnv ([UniprotNodeField.PROTEIN_LENGTH].map
      UniprotNodeField.val) (fun _ _ => none) ["P1".toList] _
      (claim_C10_amended.1 idEnv [UniprotNodeField.PROTEIN_LENGTH]
        ["P1".toList] (by decide))⟩

theorem snetLoop_spec (nts : List GONodeType) (flt : List String)
    (ets : List GOEdgeType) :
    ((∃ et ∈ ets, ∃ nt ∈ checkNodeTypesOfEdges et, nt ∉ nts) →
      (snetLoop nts flt ets).2.2 = true ∧ (snetLoop nts flt ets).2.1 ≠ []) ∧
    ((∀ et ∈ ets, ∀ nt ∈ checkNodeTypesOfEdges et, nt ∈ nts) →
      (snetLoop nts flt ets).2.1 = [] ∧ (snetLoop nts flt ets).2.2 = false) ∧
    (∀ m ∈ (snetLoop nts flt ets).2.1, ∃ nt,
      (∃ et ∈ ets, nt ∈ checkNodeTypesOfEdges et) ∧ nt ∉ nts ∧
      m = errMsgNodeType nt) := by
  induction ets generalizing flt with
  | nil =>
    refine ⟨?_, ?_, ?_⟩
    · rintro ⟨et, het, _⟩
      simp at het
    · intro _
      exact ⟨rfl, rfl⟩
    · intro m hm
      simp [snetLoop] at hm
  | cons et rest ih =>
    unfold snetLoop
    cases hf : (checkNodeTypesOfEdges et).find?
        (fun nt => decide (nt ∉ nts)) with
    | some nt =>
      have hmem : nt ∈ checkNodeTypesOfEdges et := List.mem_of_find?_eq_some hf
      have hnot : nt ∉ nts := by
        have := List.find?_some hf
        simpa using this
      refine ⟨fun _ => ⟨rfl, by simp⟩, ?_, ?_⟩
      · intro hall
        exact absurd (hall et (List.mem_cons_self et rest) nt hmem) hnot
      · intro m hm
        simp only [List.mem_singleton] at hm
        exact ⟨nt, ⟨et, List.mem_cons_self et rest, hmem⟩, hnot, hm⟩
    | none =>
      have hall : ∀ nt ∈ checkNodeTypesOfEdges et, nt ∈ nts := by
        intro nt hnt
        have := List.find?_eq_none.mp hf nt hnt
        simpa using this
      refine ⟨?_, ?_, ?_⟩
      · rintro ⟨et2, het2, nt2, hnt2, hnot2⟩
        rcases List.mem_cons.mp het2 with h1 | h1
        · exact absurd (hall nt2 (h1 ▸ hnt2)) hnot2
        · exact (ih _).1 ⟨et2, h1, nt2, hnt2, hnot2⟩
      · intro hall2
        exact (ih _).2.1
          (fun et2 het2 => hall2 et2 (List.mem_cons.mpr (Or.inr het2)))
      · intro m hm
        obtain ⟨nt2, ⟨et2, het2, hnt2⟩, hnot2, hm2⟩ := (ih _).2.2 m hm
        exact ⟨nt2, ⟨et2, List.mem_cons.mpr (Or.inr het2), hnt2⟩, hnot2, hm2⟩

theorem selLoop_spec (ets : List GOEdgeType) (p g d : List String)
    (labels : List GOEdgeLabel) :
    ((∃ lb ∈ labels, lb.necessaryEdgeType ∉ ets) →
      (selLoop ets p g d labels).retFalse = true ∧
      (selLoop ets p g d labels).log ≠ []) ∧
    ((∀ lb ∈ labels, lb.necessaryEdgeType ∈ ets) →
      (selLoop ets p g d labels).log = [] ∧
      (selLoop ets p g d labels).retFalse = false) ∧
    (∀ m ∈ (selLoop ets p g d labels).log, ∃ lb ∈ labels,
      lb.necessaryEdgeType ∉ ets ∧ m = errMsgEdgeType lb.necessaryEdgeType) := by
  induction labels generalizing p g d with
  | nil =>
    refine ⟨?_, ?_, ?_⟩
    · rintro ⟨lb, hlb, _⟩
      simp at hlb
    · intro _
      exact ⟨rfl, rfl⟩
    · intro m hm
      simp [selLoop] at hm
  | cons lb rest ih =>
    unfold selLoop
    by_cases hn : lb.necessaryEdgeType ∈ ets
    · rw [if_pos hn]
      refine ⟨?_, ?_, ?_⟩
      · rintro ⟨lb2, hlb2, hnot2⟩
        rcases List.mem_cons.mp hlb2 with h1 | h1
        · exact absurd hn (h1 ▸ hnot2)
        · exact (ih _ _ _).1 ⟨lb2, h1, hnot2⟩
      · intro hall2
        exact (ih _ _ _).2.1
          (fun lb2 hlb2 => hall2 lb2 (List.mem_cons.mpr (Or.inr hlb2)))
      · intro m hm
        obtain ⟨lb2, hlb2, hnot2, hm2⟩ := (ih _ _ _).2.2 m hm
        exact ⟨lb2, List.mem_cons.mpr (Or.inr hlb2), hnot2, hm2⟩
    · rw [if_neg hn]
      refine ⟨fun _ => ⟨rfl, by simp⟩, ?_, ?_⟩
      · intro hall2
        exact absurd (hall2 lb (List.mem_cons_self lb rest)) hn
      · intro m hm
        simp only [List.mem_singleton] at hm
        exact ⟨lb, List.mem_cons_self lb rest, hn, hm⟩

/-- The configuration of the C1 scenario: node types `[MOLECULAR_FUNCTION]`
with edge types `[MF-MF, PROTEIN-CC]`, whose second edge type is missing
its required `PROTEIN` (and `CELLULAR_COMPONENT`) node types. -/
def c1State : GOState :=
  goInit (some "9606") (some [.MOLECULAR_FUNCTION])
    (some [.MOLECULAR_FUNCTION_TO_MOLECULAR_FUNCTION,
           .PROTEIN_TO_CELLULAR_COMPONENT]) none none none true false ["IEA"]

/-- A one-term ontology snapshot: `GO:1 --is_a--> GO:2`, both of aspect
`F`. -/
def c1Data : GOData :=
  { annotsDf := [], annots := [], swissprots := [],
    aspect := fun t => if t = "GO:1" ∨ t = "GO:2" then some "F" else none,
    ancestors := [("GO:1", [("GO:2", "is_a")])], interpro2go := [] }

/-- C1: constructing a GO adapter whose selected edge kind misses a
required node kind does NOT fail — `set_node_and_edge_types` logs an error
line naming the missing node kind and returns `False` (ignored by
`__init__`), the object is fully constructed with the offending edge kinds
installed, and `get_go_edges` then runs and emits edges; the spec-modelled
fail-fast builder rejects the same selection with a `ConfigurationError`. -/
theorem claim_C1_counterexample :
    c1State.log = [errMsgNodeType .PROTEIN] ∧
    c1State.edge_types = [.MOLECULAR_FUNCTION_TO_MOLECULAR_FUNCTION,
      .PROTEIN_TO_CELLULAR_COMPONENT] ∧
    getGoEdges (fun s => s) c1State c1Data =
      [(none, "go:GO:1", "go:GO:2",
        "molecular_function_is_a_molecular_function", [])] ∧
    buildTypeSelectionConfigSpec (some [.MOLECULAR_FUNCTION])
        (some [.MOLECULAR_FUNCTION_TO_MOLECULAR_FUNCTION,
               .PROTEIN_TO_CELLULAR_COMPONENT]) none =
      .error "missing required node kind for PROTEIN_TO_CELLULAR_COMPONENT" := by
  decide

/-- C1 (amended): a selection with a missing required node kind makes
`set_node_and_edge_types` log exactly one error line — naming a node kind
that is required by a selected edge kind and missing — and return `False`
instead of raising; a dependency-complete selection logs nothing and
returns normally; and symmetrically for `set_edge_labels` and the required
edge kind of each selected edge label. -/
theorem claim_C1_amended :
    (∀ (n : GONodeType) (ns : List GONodeType) (e : GOEdgeType)
      (es : List GOEdgeType),
      (∃ et ∈ e :: es, ∃ nt ∈ checkNodeTypesOfEdges et, nt ∉ n :: ns) →
      (setNodeAndEdgeTypes (some (n :: ns)) (some (e :: es))).retFalse =
        true ∧
      (setNodeAndEdgeTypes (some (n :: ns)) (some (e :: es))).log ≠ [] ∧
      (∀ m ∈ (setNodeAndEdgeTypes (some (n :: ns)) (some (e :: es))).log,
        ∃ nt, (∃ et ∈ e :: es, nt ∈ checkNodeTypesOfEdges et) ∧
          nt ∉ n :: ns ∧ m = errMsgNodeType nt)) ∧
    (∀ (n : GONodeType) (ns : List GONodeType) (e : GOEdgeType)
      (es : List GOEdgeType),
      (∀ et ∈ e :: es, ∀ nt ∈ checkNodeTypesOfEdges et, nt ∈ n :: ns) →
      (setNodeAndEdgeTypes (some (n :: ns)) (some (e :: es))).log = [] ∧
      (setNodeAndEdgeTypes (some (n :: ns)) (some (e :: es))).retFalse =
        false) ∧
    (∀ (ets : List GOEdgeType) (l : GOEdgeLabel) (ls : List GOEdgeLabel),
      (∃ lb ∈ l :: ls, lb.necessaryEdgeType ∉ ets) →
      (setEdgeLabels (some (l :: ls)) ets).retFalse = true ∧
      (setEdgeLabels (some (l :: ls)) ets).log ≠ [] ∧
      (∀ m ∈ (setEdgeLabels (some (l :: ls)) ets).log, ∃ lb ∈ l :: ls,
        lb.necessaryEdgeType ∉ ets ∧
        m = errMsgEdgeType lb.necessaryEdgeType)) ∧
    (∀ (ets : List GOEdgeType) (l : GOEdgeLabel) (ls : List GOEdgeLabel),
      (∀ lb ∈ l :: ls, lb.necessaryEdgeType ∈ ets) →
      (setEdgeLabels (some (l :: ls)) ets).log = [] ∧
      (setEdgeLabels (some (l :: ls)) ets).retFalse = false) := by
  have hsnet : ∀ (n : GONodeType) (ns : List GONodeType) (e : GOEdgeType)
      (es : List GOEdgeType),
      (setNodeAndEdgeTypes (some (n :: ns)) (some (e :: es))).log =
        (snetLoop (n :: ns) [] (e :: es)).2.1 ∧
      (setNodeAndEdgeTypes (some (n :: ns)) (some (e :: es))).retFalse =
        (snetLoop (n :: ns) [] (e :: es)).2.2 :=
    fun n ns e es => ⟨rfl, rfl⟩
  have hsel : ∀ (ets : List GOEdgeType) (l : GOEdgeLabel)
      (ls : List GOEdgeLabel),
      setEdgeLabels (some (l :: ls)) ets = selLoop ets [] [] [] (l :: ls) :=
    fun ets l ls => rfl
  refine ⟨?_, ?_, ?_, ?_⟩
  · intro n ns e es hviol
    rw [(hsnet n ns e es).1, (hsnet n ns e es).2]
    obtain ⟨h1, h2⟩ := (snetLoop_spec (n :: ns) [] (e :: es)).1 hviol
    exact ⟨h1, h2, (snetLoop_spec (n :: ns) [] (e :: es)).2.2⟩
  · intro n ns e es hall
    rw [(hsnet n ns e es).1, (hsnet n ns e es).2]
    exact (snetLoop_spec (n :: ns) [] (e :: es)).2.1 hall
  · intro ets l ls hviol
    rw [hsel ets l ls]
    obtain ⟨h1, h2⟩ := (selLoop_spec ets [] [] [] (l :: ls)).1 hviol
    exact ⟨h1, h2, (selLoop_spec ets [] [] [] (l :: ls)).2.2⟩
  · intro ets l ls hall
    rw [hsel ets l ls]
    exact (selLoop_spec ets [] [] [] (l :: ls)).2.1 hall

/-- C1 witness: the incomplete selection of the counterexample logs and
returns `False`; the same selection with `PROTEIN` and
`CELLULAR_COMPONENT` added logs nothing; a protein-CC label with only the
MF-MF edge type logs; the `is_a` MF-MF label with its edge type selected
logs nothing. -/
theorem claim_C1_witness :
    ((setNodeAndEdgeTypes (some [.MOLECULAR_FUNCTION])
        (some [.MOLECULAR_FUNCTION_TO_MOLECULAR_FUNCTION,
               .PROTEIN_TO_CELLULAR_COMPONENT])).retFalse = true ∧
      (setNodeAndEdgeTypes (some [.MOLECULAR_FUNCTION])
        (some [.MOLECULAR_FUNCTION_TO_MOLECULAR_FUNCTION,
               .PROTEIN_TO_CELLULAR_COMPONENT])).log ≠ [] ∧
      (∀ m ∈ (setNodeAndEdgeTypes (some [.MOLECULAR_FUNCTION])
          (some [.MOLECULAR_FUNCTION_TO_MOLECULAR_FUNCTION,
                 .PROTEIN_TO_CELLULAR_COMPONENT])).log,
        ∃ nt, (∃ et ∈ [GOEdgeType.MOLECULAR_FUNCTION_TO_MOLECULAR_FUNCTION,
            GOEdgeType.PROTEIN_TO_CELLULAR_COMPONENT],
            nt ∈ checkNodeTypesOfEdges et) ∧
          nt ∉ [GONodeType.MOLECULAR_FUNCTION] ∧ m = errMsgNodeType nt)) ∧
    ((setNodeAndEdgeTypes
        (some [.MOLECULAR_FUNCTION, .PROTEIN, .CELLULAR_COMPONENT])
        (some [.MOLECULAR_FUNCTION_TO_MOLECULAR_FUNCTION,
               .PROTEIN_TO_CELLULAR_COMPONENT])).log = [] ∧
      (setNodeAndEdgeTypes
        (some [.MOLECULAR_FUNCTION, .PROTEIN, .CELLULAR_COMPONENT])
        (some [.MOLECULAR_FUNCTION_TO_MOLECULAR_FUNCTION,
               .PROTEIN_TO_CELLULAR_COMPONENT])).retFalse = false) ∧
    ((setEdgeLabels (some [.pcc_LOCATED_IN])
        [.MOLECULAR_FUNCTION_TO_MOLECULAR_FUNCTION]).retFalse = true ∧
      (setEdgeLabels (some [.pcc_LOCATED_IN])
        [.MOLECULAR_FUNCTION_TO_MOLECULAR_FUNCTION]).log ≠ [] ∧
      (∀ m ∈ (setEdgeLabels (some [.pcc_LOCATED_IN])
          [.MOLECULAR_FUNCTION_TO_MOLECULAR_FUNCTION]).log,
        ∃ lb ∈ [GOEdgeLabel.pcc_LOCATED_IN],
          lb.necessaryEdgeType ∉
            [GOEdgeType.MOLECULAR_FUNCTION_TO_MOLECULAR_FUNCTION] ∧
          m = errMsgEdgeType lb.necessaryEdgeType)) ∧
    ((setEdgeLabels (some [.mfmf_IS_A])
        [.MOLECULAR_FUNCTION_TO_MOLECULAR_FUNCTION]).log = [] ∧
      (setEdgeLabels (some [.mfmf_IS_A])
        [.MOLECULAR_FUNCTION_TO_MOLECULAR_FUNCTION]).retFalse = false) :=
  ⟨claim_C1_amended.1 _ [] _ [.PROTEIN_TO_CELLULAR_COMPONENT] (by decide),
   claim_C1_amended.2.1 _ [.PROTEIN, .CELLULAR_COMPONENT] _
     [.PROTEIN_TO_CELLULAR_COMPONENT] (by decide),
   claim_C1_amended.2.2.1 _ _ [] (by decide),
   claim_C1_amended.2.2.2 _ _ [] (by decide)⟩

theorem dfPassAux_take (st : GOState) (env : String → String)
    (aspect : String → Option String) (n : Nat) (hes : st.earlyStop = some n)
    (hn : 1 ≤ n) :
    ∀ (rows : List AnnotRow) (i : Nat), i ≤ n →
      dfPassAux st env aspect i rows =
        (rows.take (n + 1 - i)).bind (dfRowEdges st env aspect) := by
  intro rows
  induction rows with
  | nil => intro i _; simp [dfPassAux]
  | cons r rs ih =>
    intro i hi
    unfold dfPassAux
    rw [hes]
    dsimp only
    by_cases hstop : i = n
    · subst hstop
      rw [if_pos ⟨by omega, le_refl i⟩]
      have : i + 1 - i = 1 := by omega
      rw [this]
      simp [List.bind]
    · rw [if_neg (by omega)]
      rw [ih (i + 1) (by omega)]
      have : n + 1 - i = (n + 1 - (i + 1)) + 1 := by omega
      rw [this, List.take_succ_cons]
      simp [List.bind]

theorem goAcceptedPass_rejected_prefix {α : Type} (es : Option Nat)
    (f : α → List GOEdge) (pre post : List α)
    (hpre : ∀ it ∈ pre, f it = []) :
    goAcceptedPass es f 0 (pre ++ post) = goAcceptedPass es f 0 post := by
  induction pre with
  | nil => rfl
  | cons it pres ih =>
    have hih := ih (fun it2 h2 => hpre it2 (List.mem_cons.mpr (Or.inr h2)))
    cases es with
    | none =>
      have hstep : goAcceptedPass none f 0 ((it :: pres) ++ post) =
          f it ++ goAcceptedPass none f (0 + (f it).length) (pres ++ post) :=
        rfl
      rw [hstep, hpre it (List.mem_cons_self it pres)]
      simpa using hih
    | some n =>
      have hstep : goAcceptedPass (some n) f 0 ((it :: pres) ++ post) =
          f it ++ (if n ≠ 0 ∧ n ≤ 0 + (f it).length then []
            else goAcceptedPass (some n) f (0 + (f it).length)
              (pres ++ post)) := rfl
      rw [hstep, hpre it (List.mem_cons_self it pres)]
      rw [if_neg (by simp)]
      simpa using hih

/-- C4 (amended): with an early-stop limit `N ≥ 1` configured, the
DataFrame-shaped protein-GO pass processes exactly the first `N + 1` rows,
counting EVERY row — accepted or rejected — against the limit; the
per-entry protein-GO pass, the GO-GO pass and the domain-GO pass instead
count only accepted (emitted) edges: a prefix of entries contributing no
edges never consumes their limit. -/
theorem claim_C4_amended :
    (∀ (st : GOState) (env : String → String)
      (aspect : String → Option String) (rows : List AnnotRow) (n : Nat),
      st.earlyStop = some n → 1 ≤ n →
      proteinGoDfEdges st env aspect rows =
        (rows.take (n + 1)).bind (dfRowEdges st env aspect)) ∧
    (∀ (st : GOState) (env : String → String)
      (aspect : String → Option String) (swiss : List String)
      (pre post : List (String × List GOAnnot)),
      (∀ it ∈ pre, dictItemEdges st env aspect swiss it = []) →
      proteinGoDictEdges st env aspect swiss (pre ++ post) =
        proteinGoDictEdges st env aspect swiss post) ∧
    (∀ (st : GOState) (env : String → String)
      (aspect : String → Option String)
      (pre post : List (String × List (String × String))),
      (∀ it ∈ pre, goGoTermEdges st env aspect it = []) →
      goToGoEdges st env aspect (pre ++ post) =
        goToGoEdges st env aspect post) ∧
    (∀ (st : GOState) (env : String → String)
      (aspect : String → Option String)
      (pre post : List (String × List String)),
      (∀ it ∈ pre, domainItemEdges st env aspect it = []) →
      domainGoEdges st env aspect (pre ++ post) =
        domainGoEdges st env aspect post) := by
  refine ⟨?_, ?_, ?_, ?_⟩
  · intro st env aspect rows n hes hn
    have := dfPassAux_take st env aspect n hes hn rows 0 (by omega)
    simpa [proteinGoDfEdges] using this
  · intro st env aspect swiss pre post hpre
    exact goAcceptedPass_rejected_prefix st.earlyStop _ pre post hpre
  · intro st env aspect pre post hpre
    exact goAcceptedPass_rejected_prefix st.earlyStop _ pre post hpre
  · intro st env aspect pre post hpre
    exact goAcceptedPass_rejected_prefix st.earlyStop _ pre post hpre

/-- The C4 scenario configuration: all-organisms mode, default selections,
early stop limit forced to 1. -/
def c4State : GOState :=
  { goInit (some "*") none none none none none true true ["IEA"] with
    earlyStop := some 1 }

/-- Aspect map of the C4 scenario: only `GO:1`, a molecular function. -/
def c4Aspect : String → Option String := fun t =>
  if t = "GO:1" then some "F" else none

/-- Three annotation rows: two rejected (IEA evidence), the third
acceptable. -/
def c4Rows : List AnnotRow :=
  [⟨"P1", "enables", "GO:1", "r1", "IEA"⟩,
   ⟨"P2", "enables", "GO:1", "r2", "IEA"⟩,
   ⟨"P3", "enables", "GO:1", "r3", "EXP"⟩]

/-- The C4 scenario dataset (DataFrame shape). -/
def c4Data : GOData :=
  { annotsDf := c4Rows, annots := [], swissprots := [],
    aspect := c4Aspect, ancestors := [], interpro2go := [] }

/-- C4: with early stop `N = 1`, the DataFrame-shaped protein-GO pass of
`get_go_edges` emits NO edge on rows `[rejected, rejected, acceptable]` —
it breaks on the row index after two rejected rows — while the
spec-modelled accepted-counting limit still emits the acceptable row's
edge. -/
theorem claim_C4_counterexample :
    getGoEdges (fun s => s) c4State c4Data = [] ∧
    stopOnAcceptedRows 1 (dfRowEdges c4State (fun s => s) c4Aspect) 0
        c4Rows =
      [(none, "uniprot:P3", "go:GO:1", "protein_enables_molecular_function",
        [("reference", "r3"), ("evidence_code", "EXP")])] := by
  decide

/-- Rejected-only prefixes for the three accepted-counting passes, and
their non-empty continuations. -/
def c4DictPre : List (String × List GOAnnot) :=
  [("P0", [⟨"enables", "GO:1", "r0", "IEA"⟩])]

def c4DictPost : List (String × List GOAnnot) :=
  [("P3", [⟨"enables", "GO:1", "r3", "EXP"⟩])]

def c4GoGoPre : List (String × List (String × String)) :=
  [("GO:5", [("GO:6", "is_a")])]

def c4GoGoPost : List (String × List (String × String)) :=
  [("GO:1", [("GO:1", "is_a")])]

def c4DomPre : List (String × List String) := [("IPR0", ["GO:6"])]

def c4DomPost : List (String × List String) := [("IPR1", ["GO:1"])]

/-- C4 witness: the amended behavior at the concrete scenario — the
DataFrame pass with limit 1 equals the unlimited pass on the first two
rows, and a rejected-only prefix leaves each accepted-counting pass
unchanged. -/
theorem claim_C4_witness :
    proteinGoDfEdges c4State (fun s => s) c4Aspect c4Rows =
      (c4Rows.take 2).bind (dfRowEdges c4State (fun s => s) c4Aspect) ∧
    proteinGoDictEdges c4State (fun s => s) c4Aspect ["P0", "P3"]
        (c4DictPre ++ c4DictPost) =
      proteinGoDictEdges c4State (fun s => s) c4Aspect ["P0", "P3"]
        c4DictPost ∧
    goToGoEdges c4State (fun s => s) c4Aspect (c4GoGoPre ++ c4GoGoPost) =
      goToGoEdges c4State (fun s => s) c4Aspect c4GoGoPost ∧
    domainGoEdges c4State (fun s => s) c4Aspect (c4DomPre ++ c4DomPost) =
      domainGoEdges c4State (fun s => s) c4Aspect c4DomPost :=
  ⟨claim_C4_amended.1 c4State (fun s => s) c4Aspect c4Rows 1 (by decide)
      (by decide),
   claim_C4_amended.2.1 c4State (fun s => s) c4Aspect ["P0", "P3"]
      c4DictPre c4DictPost (by decide),
   claim_C4_amended.2.2.1 c4State (fun s => s) c4Aspect c4GoGoPre
      c4GoGoPost (by decide),
   claim_C4_amended.2.2.2 c4State (fun s => s) c4Aspect c4DomPre c4DomPost
      (by decide)⟩

theorem goAcceptedPass_none {α : Type} (f : α → List GOEdge) :
    ∀ (cnt : Nat) (items : List α),
      goAcceptedPass none f cnt items = items.bind f := by
  intro cnt items
  induction items generalizing cnt with
  | nil => rfl
  | cons it rest ih =>
    have hstep : goAcceptedPass none f cnt (it :: rest) =
        f it ++ goAcceptedPass none f (cnt + (f it).length) rest := rfl
    rw [hstep, ih]
    simp [List.bind]

/-- C6: for every ontology term and `(ancestor, relation)` pair in its
ancestor list with the relation enabled, both aspects resolving to
configured node labels and the aspect pair in the edge-kind filter set,
`GO.get_go_edges` (without the debug limit) emits the edge with source the
TERM and target the ANCESTOR — never reversed — labeled
`<aspect(term)>_<relation>_<aspect(ancestor)>`. -/
theorem claim_C6_gogo_direction (st : GOState) (env : String → String)
    (d : GOData) (k anc rel : String) (v : List (String × String))
    (ak aa lk la : String)
    (hes : st.earlyStop = none)
    (hgo : goToGoEdgeTypes.any (fun et => decide (et ∈ st.edge_types)) = true)
    (hmemk : (k, v) ∈ d.ancestors) (hmemanc : (anc, rel) ∈ v)
    (hrel : rel ∈ st.glabels)
    (hak : d.aspect k = some ak) (haa : d.aspect anc = some aa)
    (hlk : alookup (aspectToNodeLabelDict st.node_types) ak = some lk)
    (hla : alookup (aspectToNodeLabelDict st.node_types) aa = some la)
    (hfilt : (lk ++ "-" ++ la) ∈ st.filt) :
    (none, addpfxId env st "go" k, addpfxId env st "go" anc,
     underscoreSpaces lk ++ "_" ++ rel ++ "_" ++ underscoreSpaces la,
     ([] : List (String × String))) ∈ getGoEdges env st d := by
  have hedge : (none, addpfxId env st "go" k, addpfxId env st "go" anc,
      underscoreSpaces lk ++ "_" ++ rel ++ "_" ++ underscoreSpaces la,
      ([] : List (String × String))) ∈
        goGoTermEdges st env d.aspect (k, v) := by
    apply List.mem_filterMap.mpr
    refine ⟨(anc, rel), hmemanc, ?_⟩
    simp [goGoTermEdges, hrel, hak, haa, hlk, hla, hfilt]
  have hpass : goToGoEdges st env d.aspect d.ancestors =
      d.ancestors.bind (goGoTermEdges st env d.aspect) := by
    unfold goToGoEdges
    rw [hes]
    exact goAcceptedPass_none _ 0 _
  have hmem2 : (none, addpfxId env st "go" k, addpfxId env st "go" anc,
      underscoreSpaces lk ++ "_" ++ rel ++ "_" ++ underscoreSpaces la,
      ([] : List (String × String))) ∈ goToGoEdges st env d.aspect
        d.ancestors := by
    rw [hpass]
    exact List.mem_bind.mpr ⟨(k, v), hmemk, hedge⟩
  unfold getGoEdges
  rw [if_pos hgo]
  exact List.mem_append_left _ (List.mem_append_right _ hmem2)

/-- The C6 witness configuration: a default GO adapter over organism 9606
(no test mode). -/
def c6State : GOState :=
  goInit (some "9606") none none none none none true false ["IEA"]

/-- The C6 witness ontology: `GO:1 --is_a--> GO:2`, both aspect `F`. -/
def c6Data : GOData :=
  { annotsDf := [], annots := [], swissprots := [],
    aspect := fun t => if t = "GO:1" ∨ t = "GO:2" then some "F" else none,
    ancestors := [("GO:1", [("GO:2", "is_a")])], interpro2go := [] }

/-- C6 witness: an `F --is_a--> F` pair yields exactly the edge
`GO:1 → GO:2` labeled `molecular_function_is_a_molecular_function`. -/
theorem claim_C6_witness :
    ((none : Option String), "go:GO:1", "go:GO:2",
     "molecular_function_is_a_molecular_function",
     ([] : List (String × String))) ∈
      getGoEdges (fun s => s) c6State c6Data :=
  claim_C6_gogo_direction c6State (fun s => s) c6Data "GO:1" "GO:2" "is_a"
    [("GO:2", "is_a")] "F" "F" "molecular function" "molecular function"
    (by decide) (by decide) (by decide) (by decide) (by decide) rfl rfl
    (by decide) (by decide) (by decide)
